import Mathlib

/-!
Verification of the sceptic-ai code-analysis backend.

The Python sources embedded here:
  * backend/ml/model.py   — feature extraction, vulnerability scanner, predictor
  * backend/main.py       — content analysis, analysis cache, HTTP handlers
  * backend/api/app.py    — background GitHub-analysis job and ledger gating

Python regular expressions are embedded by a small pattern language `Pat`
together with a backtracking matcher that reproduces `re` semantics for the
exact patterns appearing in the sources (ordered alternation, greedy and lazy
repetition, word boundaries).  Floating-point quantities are represented by
exact rationals; the single genuinely irrational computation (`numpy.std`
inside the indentation-consistency metric) is abstracted as a function
parameter `std`, since no verified property depends on its value.
-/

namespace Sceptic

/-- Python whitespace class `\s` over ASCII: space, tab, newline, carriage
return, vertical tab, form feed. -/
def isPyWS (c : Char) : Bool :=
  c = ' ' || c = '\t' || c = '\n' || c = '\r' || c = '\x0b' || c = '\x0c'

/-- Python word-character class `\w` restricted to ASCII: letters, digits,
underscore.  (The sources only ever compare against ASCII keywords.) -/
def isWordChar (c : Char) : Bool := c.isAlphanum || c = '_'

/-- Strip Python whitespace from the left of a character list (`str.lstrip`). -/
def pyLStrip (l : List Char) : List Char := l.dropWhile isPyWS

/-- Strip Python whitespace from the right (`str.rstrip`). -/
def pyRStrip (l : List Char) : List Char := (l.reverse.dropWhile isPyWS).reverse

/-- Strip Python whitespace from both ends (`str.strip`). -/
def pyStrip (l : List Char) : List Char := pyRStrip (pyLStrip l)

/-- `code.split('\n')` on character lists; always returns at least one line. -/
def splitNL : List Char → List (List Char)
  | [] => [[]]
  | c :: t =>
    let r := splitNL t
    if c = '\n' then [] :: r else (c :: r.headD []) :: r.tail

/-- Does `l` begin with the literal `pre`? -/
def startsWithL : List Char → List Char → Bool
  | [], _ => true
  | _ :: _, [] => false
  | p :: ps, c :: cs => p = c && startsWithL ps cs

/-- Does `l` end with the literal `suf`? -/
def endsWithL (suf l : List Char) : Bool := startsWithL suf.reverse l.reverse

/-- Does `hay` contain `needle` as a contiguous substring (Python `in`)? -/
def containsL (needle : List Char) : List Char → Bool
  | [] => startsWithL needle []
  | c :: t => startsWithL needle (c :: t) || containsL needle t

/-!  ## Pattern language for the regexes used by the sources  -/

/-- Abstract syntax of the regular expressions appearing in the Python
sources.  `starG`/`starL` are greedy/lazy Kleene star over a character class,
`opt1` a greedy `?` over a class, `rep1` a greedy `(?:...)+` whose body
consumes at least one character, `wordB` the `\b` word boundary. -/
inductive Pat where
  | lit   : List Char → Pat
  | litCI : List Char → Pat
  | cls   : (Char → Bool) → Pat
  | opt1  : (Char → Bool) → Pat
  | starG : (Char → Bool) → Pat
  | starL : (Char → Bool) → Pat
  | seq   : Pat → Pat → Pat
  | alt   : Pat → Pat → Pat
  | wordB : Pat
  | rep1  : Pat → Pat

/-- Word-character test on an optional character (string edges are
non-word positions). -/
def wAt : Option Char → Bool
  | some c => isWordChar c
  | none => false

/-- Match a literal, threading the previous character for `\b`. -/
def matchLit {α : Type} : List Char → Option Char → List Char →
    (Option Char → List Char → Option α) → Option α
  | [], prev, s, k => k prev s
  | p :: ps, _, s, k =>
    match s with
    | [] => none
    | c :: t => if c = p then matchLit ps (some c) t k else none

/-- Match a literal case-insensitively (patterns compiled with
`re.IGNORECASE`). -/
def matchLitCI {α : Type} : List Char → Option Char → List Char →
    (Option Char → List Char → Option α) → Option α
  | [], prev, s, k => k prev s
  | p :: ps, _, s, k =>
    match s with
    | [] => none
    | c :: t => if c.toLower = p.toLower then matchLitCI ps (some c) t k else none

/-- Greedy star over a character class: longest match tried first. -/
def starGAux {α : Type} (f : Char → Bool)
    (k : Option Char → List Char → Option α) : Option Char → List Char → Option α
  | prev, [] => k prev []
  | prev, c :: t =>
    (if f c then starGAux f k (some c) t else none) <|> k prev (c :: t)

/-- Lazy star over a character class: shortest match tried first. -/
def starLAux {α : Type} (f : Char → Bool)
    (k : Option Char → List Char → Option α) : Option Char → List Char → Option α
  | prev, [] => k prev []
  | prev, c :: t =>
    k prev (c :: t) <|> (if f c then starLAux f k (some c) t else none)

/-- Structural size of a pattern, used to compute a sufficient fuel bound. -/
def sizePat : Pat → ℕ
  | .lit _ => 1
  | .litCI _ => 1
  | .cls _ => 1
  | .opt1 _ => 1
  | .starG _ => 1
  | .starL _ => 1
  | .seq p q => sizePat p + sizePat q + 1
  | .alt p q => sizePat p + sizePat q + 1
  | .wordB => 1
  | .rep1 p => sizePat p + 1

/-- Backtracking matcher in continuation-passing style.  Alternatives are
explored in the same priority order as CPython's `re` engine, so the first
continuation success is the match `re` would report.  The recursion is
structural on `fuel`, which decreases on every step; `tryMatch` supplies
`(length + 2) * (sizePat + 2)`, ample for the embedded patterns, whose
`rep1` bodies always consume at least one character and never nest. -/
def matchPat {α : Type} : ℕ → Pat → Option Char → List Char →
    (Option Char → List Char → Option α) → Option α
  | 0, _, _, _, _ => none
  | _ + 1, .lit cs, prev, s, k => matchLit cs prev s k
  | _ + 1, .litCI cs, prev, s, k => matchLitCI cs prev s k
  | _ + 1, .cls f, _, s, k =>
    match s with
    | [] => none
    | c :: t => if f c then k (some c) t else none
  | _ + 1, .opt1 f, prev, s, k =>
    (match s with
     | [] => none
     | c :: t => if f c then k (some c) t else none) <|> k prev s
  | _ + 1, .starG f, prev, s, k => starGAux f k prev s
  | _ + 1, .starL f, prev, s, k => starLAux f k prev s
  | fuel + 1, .seq p q, prev, s, k =>
    matchPat fuel p prev s (fun pr s' => matchPat fuel q pr s' k)
  | fuel + 1, .alt p q, prev, s, k =>
    matchPat fuel p prev s k <|> matchPat fuel q prev s k
  | _ + 1, .wordB, prev, s, k =>
    if wAt prev != wAt s.head? then k prev s else none
  | fuel + 1, .rep1 p, prev, s, k =>
    matchPat fuel p prev s (fun pr s' =>
      (if s'.length < s.length then matchPat fuel (.rep1 p) pr s' k else none)
        <|> k pr s')

/-- Attempt a match of `p` at the current position; on success return the
last consumed character and the remaining suffix of the chosen match. -/
def tryMatch (p : Pat) (prev : Option Char) (s : List Char) :
    Option (Option Char × List Char) :=
  matchPat ((s.length + 2) * (sizePat p + 2)) p prev s (fun pr rest => some (pr, rest))

/-- `re.search` from a given position onward. -/
def searchAux (p : Pat) : Option Char → List Char → Bool
  | prev, [] => (tryMatch p prev []).isSome
  | prev, c :: t => (tryMatch p prev (c :: t)).isSome || searchAux p (some c) t

/-- Boolean `re.search(pattern, s)`. -/
def reSearch (p : Pat) (s : String) : Bool := searchAux p none s.toList

/-- Non-overlapping left-to-right scan collecting the text of each match
(`re.findall`); the scan resumes after each match, exactly as in CPython.
None of the embedded patterns matches the empty string, but a zero-width
match would simply advance by one character. -/
def findallAux (p : Pat) : ℕ → Option Char → List Char → List (List Char)
  | 0, _, _ => []
  | fuel + 1, prev, s =>
    match tryMatch p prev s with
    | some (pr, rest) =>
      let n := s.length - rest.length
      if n = 0 then
        match s with
        | [] => []
        | c :: t => findallAux p fuel (some c) t
      else s.take n :: findallAux p fuel pr rest
    | none =>
      match s with
      | [] => []
      | c :: t => findallAux p fuel (some c) t

/-- `re.findall(pattern, s)` returning the matched substrings. -/
def reFindall (p : Pat) (s : String) : List (List Char) :=
  findallAux p (s.toList.length + 1) none s.toList

/-- Number of matches, `len(re.findall(pattern, s))`. -/
def countMatches (p : Pat) (s : String) : ℕ := (reFindall p s).length

/-!  Pattern-building helpers. -/

/-- A literal pattern from a string. -/
def plit (s : String) : Pat := .lit s.toList

/-- A case-insensitive literal pattern. -/
def plitCI (s : String) : Pat := .litCI s.toList

/-- `\s*` -/
def wsStar : Pat := .starG isPyWS

/-- `\s+` -/
def wsPlus : Pat := .seq (.cls isPyWS) (.starG isPyWS)

/-- Greedy `c+` over a class. -/
def plusCls (f : Char → Bool) : Pat := .seq (.cls f) (.starG f)

/-- Lazy `.*?` under `re.DOTALL` (matches any character). -/
def anyStarL : Pat := .starL (fun _ => true)

/-- Right-nested sequence of patterns. -/
def seqL : List Pat → Pat
  | [] => .lit []
  | [p] => p
  | p :: ps => .seq p (seqL ps)

/-- Right-nested ordered alternation of patterns. -/
def altOf : List Pat → Pat
  | [] => .lit []
  | [p] => p
  | p :: ps => .alt p (altOf ps)

/-- `\bword\b` -/
def kwPat (w : String) : Pat := .seq .wordB (.seq (plit w) .wordB)

/-- `\b(w1|w2|...)\b` -/
def kwAltPat (ws : List String) : Pat :=
  .seq .wordB (.seq (altOf (ws.map plit)) .wordB)

/-!  ## Exact rational arithmetic standing in for Python floats  -/

/-- Python's builtin `round` / `numpy.round` to an integer: round half to
even (banker's rounding), computed exactly on rationals. -/
def roundHalfEven (q : ℚ) : ℤ :=
  let f := ⌊q⌋
  let r := q - f
  if r < 1/2 then f
  else if 1/2 < r then f + 1
  else if f % 2 = 0 then f else f + 1

/-- `round(q, d)` on rationals with banker's rounding. -/
def roundQ (d : ℕ) (q : ℚ) : ℚ :=
  (roundHalfEven (q * (10 : ℚ) ^ d) : ℚ) / (10 : ℚ) ^ d

/-!  ## backend/ml/model.py — feature extraction  -/

/-- `str.expandtabs(4)` width of a leading run of tabs and spaces: a tab
advances to the next multiple of 4, any other character adds one column. -/
def expandTabsWidth (l : List Char) : ℕ :=
  l.foldl (fun w c => if c = '\t' then (w / 4 + 1) * 4 else w + 1) 0

/-- Width of `re.match(r'^[\t ]*', line)` after `expandtabs(4)`. -/
def leadingIndent (l : List Char) : ℕ :=
  expandTabsWidth (l.takeWhile (fun c => c = '\t' || c = ' '))

/-- `calculate_indentation_consistency` (model.py).  Non-blank lines; if all
leading-indent widths agree the result is 1.0, otherwise
`round(1 - std(widths)/4, 2)`.  `numpy.std` computes a floating-point square
root, which has no exact rational counterpart, so it is taken as the
parameter `std`; every verified property is independent of its value. -/
def calculate_indentation_consistency (std : List ℕ → ℚ) (code : String) : ℚ :=
  let lines := (splitNL code.toList).filter (fun l => pyStrip l ≠ [])
  if lines = [] then 1
  else
    let indentations := lines.map leadingIndent
    if indentations.all (fun n => n = indentations.headD 0) then 1
    else roundQ 2 (1 - std indentations / 4)

/-- `calculate_avg_line_length` (model.py): mean length of the right-stripped
non-blank lines, rounded to two decimals; 0 when there are none. -/
def calculate_avg_line_length (code : String) : ℚ :=
  let lines := (splitNL code.toList).filter (fun l => pyStrip l ≠ [])
  if lines = [] then 0
  else roundQ 2 (((lines.map (fun l => ((pyRStrip l).length : ℚ))).sum) / lines.length)

/-- `\b(if|elif|else|for|while|and|or)\b` -/
def complexityKwPat : Pat :=
  kwAltPat ["if", "elif", "else", "for", "while", "and", "or"]

/-- `calculate_cyclomatic_complexity` (model.py): decision-point keyword
occurrences plus one. -/
def calculate_cyclomatic_complexity (code : String) : ℕ :=
  countMatches complexityKwPat code + 1

/-- Full match of `^[a-z][a-z0-9_]*$`. -/
def isSnakeName : List Char → Bool
  | [] => false
  | c :: t => c.isLower && t.all (fun d => d.isLower || d.isDigit || d = '_')

/-- Full match of `^[a-z][a-zA-Z0-9]*$`. -/
def isCamelShape : List Char → Bool
  | [] => false
  | c :: t => c.isLower && t.all (fun d => d.isAlphanum)

/-- Full match of `^[A-Z][a-zA-Z0-9]*$`. -/
def isPascalShape : List Char → Bool
  | [] => false
  | c :: t => c.isUpper && t.all (fun d => d.isAlphanum)

/-- `calculate_naming_consistency` (model.py): share of the dominant naming
style among the given identifiers; 1.0 with fewer than two identifiers.
camelCase counts only identifiers that are not already snake_case, exactly
as in the source. -/
def calculate_naming_consistency (names : List (List Char)) : ℚ :=
  if names.length < 2 then 1
  else
    let snake := names.filter isSnakeName
    let camel := names.filter (fun n => isCamelShape n && !isSnakeName n)
    let pascal := names.filter isPascalShape
    let total := names.length
    let maxStyle := max (max snake.length camel.length) pascal.length
    if 0 < total then (maxStyle : ℚ) / total else 1

/-- `\b([a-zA-Z_][a-zA-Z0-9_]*)\s*=` — assignment-target pattern shared by
model.py and main.py. -/
def assignNamePat : Pat :=
  .seq .wordB (.seq (.cls (fun c => c.isAlpha || c = '_'))
    (.seq (.starG isWordChar) (.seq (.starG isPyWS) (plit "="))))

/-- `re.findall(r'\b([a-zA-Z_][a-zA-Z0-9_]*)\s*=', code)`: the captured group
is the leading word-character run of each match. -/
def assignNames (code : String) : List (List Char) :=
  (reFindall assignNamePat code).map (fun m => m.takeWhile isWordChar)

/-- `#[^\n]|"""[\s\S]?"""|'''[\s\S]*?'''` — the (quirky) comment-counting
pattern of `extract_code_features`. -/
def numCommentsPat : Pat :=
  altOf
    [ .seq (plit "#") (.cls (fun c => c ≠ '\n')),
      .seq (plit "\"\"\"") (.seq (.opt1 (fun _ => true)) (plit "\"\"\"")),
      .seq (plit "'''") (.seq anyStarL (plit "'''")) ]

/-- `\b(def|class|import|...)\b` keyword pattern of `extract_code_features`. -/
def keywordsPat : Pat :=
  kwAltPat ["def", "class", "import", "return", "if", "else", "for", "while",
            "try", "except", "with", "lambda", "yield", "async", "await"]

/-- One line of the `^\s*#.*$|^\s*""".*?"""\s*$|^\s*'''.*?'''\s*$` MULTILINE
pattern: matches are anchored to single lines (`.` never crosses a newline),
so counting matches equals counting lines satisfying one alternative. -/
def isTripleQuoteLine (q : Char) (l : List Char) : Bool :=
  let b := pyRStrip (pyLStrip l)
  startsWithL [q, q, q] b && endsWithL [q, q, q] b && 6 ≤ b.length

/-- A line counted by the comment-line MULTILINE findall. -/
def isCommentLine (l : List Char) : Bool :=
  startsWithL ['#'] (pyLStrip l) || isTripleQuoteLine '"' l || isTripleQuoteLine '\'' l

/-- Comment-line count used for the comment-to-code ratio. -/
def commentLineCount (code : String) : ℕ :=
  ((splitNL code.toList).filter isCommentLine).length

/-- `def\s+[^(]+\([^)]*\):\s*(?:\n\s+[^\n]+)+` — function-body pattern of
`extract_code_features` / `analyze_code_vulnerabilities`. -/
def funcBodyPat : Pat :=
  seqL [plit "def", wsPlus, plusCls (fun c => c ≠ '('), plit "(",
        .starG (fun c => c ≠ ')'), plit "):", wsStar,
        .rep1 (seqL [plit "\n", wsPlus, plusCls (fun c => c ≠ '\n')])]

/-- `np.mean([fb.count('\n') for fb in function_bodies])` as a rational;
only evaluated when the list is non-empty. -/
def meanNewlineCount (bodies : List (List Char)) : ℚ :=
  ((bodies.map (fun b => ((b.count '\n' : ℕ) : ℚ))).sum) / bodies.length

/-- The 16 feature names of model.py's `FEATURE_NAMES`. -/
def FEATURE_NAMES : List String :=
  ["num_lines", "num_chars", "num_spaces", "num_tabs",
   "num_keywords", "num_comments", "num_functions",
   "num_classes", "indentation_consistency", "avg_line_length",
   "cyclomatic_complexity", "num_loops", "variable_name_consistency",
   "comment_to_code_ratio", "max_line_length", "avg_function_length"]

/-- `extract_code_features` (model.py): the 16-element feature vector, in
the order of `FEATURE_NAMES`, with every count exact and every float an
exact rational (see `calculate_indentation_consistency` for `std`). -/
def extract_code_features (std : List ℕ → ℚ) (code : String) : List ℚ :=
  let cs := code.toList
  let num_lines := cs.count '\n' + 1
  let num_chars := cs.length
  let num_spaces := cs.count ' '
  let num_tabs := cs.count '\t'
  let num_keywords := countMatches keywordsPat code
  let num_comments := countMatches numCommentsPat code
  let num_functions := countMatches (kwPat "def") code
  let num_classes := countMatches (kwPat "class") code
  let indentation_consistency := calculate_indentation_consistency std code
  let avg_line_length := calculate_avg_line_length code
  let cyclomatic_complexity := calculate_cyclomatic_complexity code
  let num_loops := countMatches (kwAltPat ["for", "while"]) code
  let lines := (splitNL cs).filter (fun l => pyStrip l ≠ [])
  let max_line_length := (lines.map List.length).foldr max 0
  let var_names := assignNames code
  let var_name_consistency := calculate_naming_consistency var_names
  let comment_lines := commentLineCount code
  let comment_to_code_ratio : ℚ :=
    if 0 < num_lines then (comment_lines : ℚ) / num_lines else 0
  let function_bodies := reFindall funcBodyPat code
  let avg_function_length : ℚ :=
    if function_bodies = [] then 0 else meanNewlineCount function_bodies
  [num_lines, num_chars, num_spaces, num_tabs,
   num_keywords, num_comments, num_functions,
   num_classes, indentation_consistency, avg_line_length,
   cyclomatic_complexity, num_loops, var_name_consistency,
   comment_to_code_ratio, max_line_length, avg_function_length]

/-!  ## backend/ml/model.py — vulnerability scanner  -/

/-- One entry of the scanner's rule tables: pattern, display name, risk
tier, base score and description. -/
structure VulnRule where
  pat : Pat
  name : String
  risk : String
  score : ℕ
  descr : String

/-- A reported finding (one entry of the `vulnerabilities` list; the dict
key `type` is spelled `vtype` here). -/
structure Vulnerability where
  vtype : String
  name : String
  risk : String
  score : ℕ
  descr : String
  deriving DecidableEq, Repr

/-- The `dangerous_imports` table of `analyze_code_vulnerabilities`. -/
def dangerousImports : List VulnRule :=
  [ ⟨seqL [plit "import", wsPlus, plit "os"], "OS Access", "high", 8,
      "Code has access to operating system functions that could be dangerous if misused"⟩,
    ⟨seqL [plit "import", wsPlus, plit "subprocess"], "Command Execution", "critical", 10,
      "Code can execute arbitrary system commands, posing serious security risks"⟩,
    ⟨seqL [plit "import", wsPlus, plit "sys"], "System Access", "medium", 5,
      "Code has access to Python interpreter and system variables"⟩,
    ⟨seqL [plit "import", wsPlus, altOf [plit "requests", plit "http", plit "urllib"]],
      "Network Access", "medium", 6,
      "Code can make network requests to external services"⟩,
    ⟨seqL [plit "import", wsPlus, plit "socket"], "Raw Socket Access", "high", 7,
      "Code has low-level network access which can be used maliciously"⟩,
    ⟨seqL [plit "from", wsPlus, plit "cryptography"], "Cryptography Usage", "medium", 4,
      "Code uses cryptographic functions which may have security implications"⟩,
    ⟨seqL [plit "import", wsPlus, altOf [plit "flask", plit "django", plit "fastapi"]],
      "Web Framework", "low", 3,
      "Code uses web frameworks which may expose endpoints"⟩,
    ⟨altOf [seqL [plit "import", wsPlus, plit "sqlite3"],
            seqL [plit "import", wsPlus, plit "pymysql"],
            seqL [plit "import", wsPlus, plit "psycopg2"]],
      "Database Access", "medium", 5,
      "Code has database access capabilities"⟩ ]

/-- `eval\s*\(` -/
def evalCallPat : Pat := seqL [plit "eval", wsStar, plit "("]

/-- The `eval` entry of the `dangerous_functions` table. -/
def evalRule : VulnRule :=
  ⟨evalCallPat, "Arbitrary Code Execution", "critical", 10,
    "eval() can execute arbitrary code and is extremely dangerous"⟩

/-- The `dangerous_functions` table of `analyze_code_vulnerabilities`
(ordered as in the source dict). -/
def dangerousFunctions : List VulnRule :=
  [ evalRule,
    ⟨seqL [plit "exec", wsStar, plit "("], "Arbitrary Code Execution", "critical", 10,
      "exec() can execute arbitrary code and is extremely dangerous"⟩,
    ⟨seqL [plit "os.system", wsStar, plit "("], "Command Execution", "critical", 9,
      "Executes shell commands which can be dangerous if user input is involved"⟩,
    ⟨plit "subprocess.", "Command Execution", "high", 8,
      "Subprocess functions can execute system commands"⟩,
    ⟨seqL [plit "open", wsStar, plit "("], "File Operations", "medium", 5,
      "File operations may lead to information disclosure or modification"⟩,
    ⟨seqL [plit "input", wsStar, plit "("], "User Input", "medium", 4,
      "User input needs proper validation to prevent injection attacks"⟩,
    ⟨plit "pickle.", "Unsafe Deserialization", "high", 7,
      "Pickle deserialization can lead to arbitrary code execution"⟩,
    ⟨.alt (seqL [plit ".format", wsStar, plit "("])
          (.seq (plit "f") (.cls (fun c => c = '\'' || c = '"'))),
      "String Formatting", "low", 2,
      "String formatting could lead to injection if used with untrusted input"⟩,
    ⟨plit "request.", "Web Request Handling", "medium", 5,
      "Web request handling requires proper validation and sanitization"⟩,
    ⟨seqL [plit ".execute", wsStar, plit "("], "SQL Operations", "high", 7,
      "Database operations need proper parameterization to prevent SQL injection"⟩ ]

/-- `try\s*:.*?` under `re.DOTALL` — the left guard context. -/
def tryContextPat : Pat := seqL [plit "try", wsStar, plit ":", anyStarL]

/-- The guard check `re.search(r'try\s*:.*?' + pattern + '.*?except', code,
re.DOTALL)`.  The guard regex is built by *source-string concatenation*, so a
top-level alternation in the function pattern splits the guard into two
alternatives: `try\s*:.*?A|B.*?except` parses as
`(try\s*:.*?A)|(B.*?except)`.  This happens for exactly one table entry (the
`.format\s*\(|f['"]` rule) and is reproduced here. -/
def guardPat : Pat → Pat
  | .alt a b => .alt (.seq tryContextPat a) (.seq b (.seq anyStarL (plit "except")))
  | p => .seq tryContextPat (.seq p (.seq anyStarL (plit "except")))

/-- The finding emitted for a dangerous-function rule whose match appears
inside a try/except context: score halved with floor 1, tier recomputed from
the reduced score, note appended to the description. -/
def guardedFinding (r : VulnRule) : Vulnerability :=
  ⟨"function", r.name, if max 1 (r.score / 2) < 4 then "low" else "medium",
    max 1 (r.score / 2), r.descr ++ " (appears to be in a try-except block)"⟩

/-- The free-form `vuln_patterns` list (hardcoded secrets, SQL injection,
curl), always emitted at full score. -/
def vulnPatterns : List VulnRule :=
  [ ⟨seqL [plit "password", wsStar, plit "=", wsStar,
           .cls (fun c => c = '\'' || c = '"'),
           plusCls (fun c => !(c = '\'' || c = '"')),
           .cls (fun c => c = '\'' || c = '"')],
      "Hardcoded Password", "critical", 9,
      "Code contains hardcoded password which is a severe security risk"⟩,
    ⟨seqL [plit "secret", wsStar, plit "=", wsStar,
           .cls (fun c => c = '\'' || c = '"'),
           plusCls (fun c => !(c = '\'' || c = '"')),
           .cls (fun c => c = '\'' || c = '"')],
      "Hardcoded Secret", "critical", 8,
      "Code contains hardcoded secret which is a severe security risk"⟩,
    ⟨seqL [plit "token", wsStar, plit "=", wsStar,
           .cls (fun c => c = '\'' || c = '"'),
           plusCls (fun c => !(c = '\'' || c = '"')),
           .cls (fun c => c = '\'' || c = '"')],
      "Hardcoded Token", "high", 7,
      "Code contains hardcoded token which should be stored securely"⟩,
    ⟨seqL [plit "SELECT", wsPlus, .starL (fun c => c ≠ '\n'), wsPlus, plit "FROM",
           .starL (fun c => c ≠ '\n'), plit "WHERE", .starL (fun c => c ≠ '\n'),
           plit "=", wsStar, .cls (fun c => c = '\'' || c = '"')],
      "Potential SQL Injection", "high", 8,
      "SQL queries should use parameterized statements to prevent injection"⟩,
    ⟨seqL [plit "curl", wsPlus], "Command-line Network Access", "medium", 6,
      "Using curl in commands can lead to injections if user input is involved"⟩ ]

/-- The returned security report: `vulnerabilities`, the quality-issue map
(key and contributed score; the float `value` fields are display-only and
omitted), the normalized `risk_level` and the three risk flags. -/
structure SecurityAnalysis where
  vulnerabilities : List Vulnerability
  code_quality : List (String × ℕ)
  risk_level : ℚ
  high_risk : Bool
  medium_risk : Bool
  low_risk : Bool
  deriving DecidableEq, Repr

/-- Sum of the scores of a list of findings. -/
def sumScores (vs : List Vulnerability) : ℕ := (vs.map (·.score)).sum

/-- `analyze_code_vulnerabilities` (model.py).  Emits import, function and
free-pattern findings, applies the try/except discount to function findings,
adds the six code-quality penalties, then normalizes
`min(100, risk_level * 2.5)` and derives the three risk flags.  All float
comparisons are exact rational comparisons except the indentation standard
deviation, abstracted by `std`. -/
def analyze_code_vulnerabilities (std : List ℕ → ℚ) (code : String) :
    SecurityAnalysis :=
  let importVulns := dangerousImports.filterMap (fun r =>
    if reSearch r.pat code then some ⟨"import", r.name, r.risk, r.score, r.descr⟩
    else none)
  let functionVulns := dangerousFunctions.filterMap (fun r =>
    if reSearch r.pat code then
      some (if reSearch (guardPat r.pat) code then guardedFinding r
            else ⟨"function", r.name, r.risk, r.score, r.descr⟩)
    else none)
  let patternVulns := vulnPatterns.filterMap (fun r =>
    if reSearch r.pat code then some ⟨"pattern", r.name, r.risk, r.score, r.descr⟩
    else none)
  let indentation_consistency := calculate_indentation_consistency std code
  let avg_line_length := calculate_avg_line_length code
  let complexity := calculate_cyclomatic_complexity code
  let total_lines := code.toList.count '\n' + 1
  let comment_lines := commentLineCount code
  let comment_ratio : ℚ :=
    if 0 < total_lines then (comment_lines : ℚ) / total_lines else 0
  let var_names := assignNames code
  let var_name_consistency := calculate_naming_consistency var_names
  let function_bodies := reFindall funcBodyPat code
  let quality : List (String × ℕ) :=
    (if indentation_consistency < 4/5 then [("indentation", 3)] else []) ++
    (if 120 < avg_line_length then [("line_length", 2)] else []) ++
    (if 15 < complexity then [("complexity", 4)] else []) ++
    (if comment_ratio < 1/20 then [("documentation", 2)] else []) ++
    (if var_name_consistency < 7/10 ∧ 5 < var_names.length then
       [("naming_consistency", 3)] else []) ++
    (if function_bodies ≠ [] ∧ 30 < meanNewlineCount function_bodies then
       [("function_length", 3)] else [])
  let risk_level_raw : ℕ :=
    sumScores importVulns + sumScores functionVulns + sumScores patternVulns +
      (quality.map (·.2)).sum
  let normalized : ℚ := min 100 ((risk_level_raw : ℚ) * 5 / 2)
  { vulnerabilities := importVulns ++ functionVulns ++ patternVulns
    code_quality := quality
    risk_level := normalized
    high_risk := decide ((70 : ℚ) ≤ normalized)
    medium_risk := decide ((30 : ℚ) ≤ normalized ∧ normalized < 70)
    low_risk := decide (normalized < (30 : ℚ)) }

/-!  ## backend/main.py — `analyze_code_content` and the analysis cache  -/

/-- The `analysis_details` sub-dictionary. -/
structure AnalysisDetails where
  total_lines : ℕ
  code_lines : ℕ
  comment_lines : ℕ
  empty_lines : ℕ
  complexity_score : ℕ
  avg_line_length : ℚ
  max_line_length : ℕ
  functions_count : ℕ
  classes_count : ℕ
  deriving DecidableEq, Repr

/-- The `code_quality` sub-dictionary of main.py's report (integer-rounded
percentages and the two-decimal comment ratio). -/
structure CodeQualityMain where
  indentation_consistency : ℤ
  naming_consistency : ℤ
  comment_ratio : ℚ
  deriving DecidableEq, Repr

/-- The `security_analysis` sub-dictionary of main.py's report. -/
structure SecurityAnalysisMain where
  vulnerabilities : List Vulnerability
  code_quality : CodeQualityMain
  risk_level : String
  high_risk : Bool
  medium_risk : Bool
  low_risk : Bool
  warnings : List String
  deriving DecidableEq, Repr

/-- The dictionary returned by `analyze_code_content`. -/
structure MainResult where
  prediction : String
  confidence : ℚ
  risk_score : ℕ
  source : String
  analysis_details : AnalysisDetails
  security_analysis : SecurityAnalysisMain
  deriving DecidableEq, Repr

/-- The fallback dictionary `analyze_code_content` returns from its own
`except` branch (reached e.g. for empty input, via the internal
`ValueError`, or for input with zero code lines, via `ZeroDivisionError`):
prediction `Error`, zero scores, and all three risk flags `False`. -/
def mainErrorResult : MainResult :=
  { prediction := "Error"
    confidence := 0
    risk_score := 0
    source := "Analysis Error"
    analysis_details := ⟨0, 0, 0, 0, 0, 0, 0, 0, 0⟩
    security_analysis :=
      { vulnerabilities := []
        code_quality := ⟨0, 0, 0⟩
        risk_level := "unknown"
        high_risk := false
        medium_risk := false
        low_risk := false
        warnings := ["Analysis failed due to an error"] } }

/-- The comment-prefix tuple of main.py's line classifier. -/
def commentStarters : List (List Char) :=
  ["#".toList, "//".toList, "/*".toList, "*".toList, "\"\"\"".toList, "'''".toList]

/-- `l.strip().startswith(('#', '//', '/*', '*', '\"\"\"', \"'''\"))`. -/
def startsWithCommentMark (l : List Char) : Bool :=
  commentStarters.any (fun p => startsWithL p (pyStrip l))

/-- `(def\s+[a-zA-Z_][a-zA-Z0-9_]*\s*\()` — main.py's function pattern. -/
def mainFunctionPat : Pat :=
  seqL [plit "def", wsPlus, .cls (fun c => c.isAlpha || c = '_'),
        .starG isWordChar, wsStar, plit "("]

/-- `(class\s+[a-zA-Z_][a-zA-Z0-9_]*\s*[:\(])` — main.py's class pattern. -/
def mainClassPat : Pat :=
  seqL [plit "class", wsPlus, .cls (fun c => c.isAlpha || c = '_'),
        .starG isWordChar, wsStar, .cls (fun c => c = ':' || c = '(')]

/-- The 14 complexity indicator words of main.py (presence, not counts). -/
def complexityIndicators : List String :=
  ["if", "else", "elif", "for", "while", "try", "except",
   "with", "break", "continue", "return", "yield", "match", "case"]

/-- `re.search(r'^\s{16,}', content, re.MULTILINE)`: some line start is
followed by at least 16 consecutive whitespace characters (`\s` includes
newlines, so the run may cross lines). -/
def deepNesting (content : String) : Bool :=
  (([] :: (splitNLTails content.toList)).any
    (fun t => 16 ≤ (t.takeWhile isPyWS).length))
where
  /-- Suffixes of the input starting right after each newline. -/
  splitNLTails : List Char → List (List Char)
    | [] => []
    | c :: t => if c = '\n' then t :: splitNLTails t else splitNLTails t

/-- main.py's `security_patterns` table (all searched with
`re.IGNORECASE`); each hit contributes a fixed finding of score 8. -/
def securityPatternsMain : List (String × Pat × String × String) :=
  [ ("sql_injection",
     altOf [seqL [plitCI "execute", wsStar, plit "("], plitCI "cursor.execute",
            plitCI "raw_input", seqL [plitCI "input", wsStar, plit "("]],
     "Potential SQL injection vulnerability",
     "Found pattern matching potential sql injection vulnerability"),
    ("command_injection",
     altOf [plitCI "os.system", plitCI "subprocess.call",
            .seq (plitCI "eval") (plit "("), .seq (plitCI "exec") (plit "(")],
     "Potential command injection vulnerability",
     "Found pattern matching potential command injection vulnerability"),
    ("hardcoded_secrets",
     altOf [seqL [plitCI "password", wsStar, plit "="],
            seqL [plitCI "secret", wsStar, plit "="],
            seqL [plitCI "api_key", wsStar, plit "="]],
     "Hardcoded secrets detected",
     "Found pattern matching hardcoded secrets detected"),
    ("unsafe_deserialization",
     altOf [plitCI "pickle.loads", plitCI "yaml.load"],
     "Unsafe deserialization detected",
     "Found pattern matching unsafe deserialization detected"),
    ("path_traversal",
     altOf [plit "../", plit "..\\"],
     "Potential path traversal vulnerability",
     "Found pattern matching potential path traversal vulnerability") ]

/-- `analyze_code_content` (main.py).  Empty or whitespace-only input raises
`ValueError` inside the function's own `try`, and input whose stripped lines
are all comments or blanks divides by zero while building `ai_indicators`;
both are swallowed by the function's blanket `except`, which returns
`mainErrorResult` instead of propagating.  Otherwise the full report is
computed. -/
def analyze_code_content (content : String) : MainResult :=
  if pyStrip content.toList = [] then mainErrorResult
  else
    let lines := splitNL (pyStrip content.toList)
    let total_lines := lines.length
    let code_lines := (lines.filter (fun l =>
      pyStrip l ≠ [] && !startsWithCommentMark l)).length
    let comment_lines := (lines.filter startsWithCommentMark).length
    let empty_lines := (lines.filter (fun l => pyStrip l = [])).length
    let functions := reFindall mainFunctionPat content
    let classes := reFindall mainClassPat content
    let complexity_score :=
      (complexityIndicators.filter (fun w => reSearch (kwPat w) content)).length
    let line_lengths := (lines.filter (fun l => pyStrip l ≠ [])).map List.length
    let avg_line_length : ℚ :=
      if line_lengths ≠ [] then
        ((line_lengths.map (fun n => (n : ℚ))).sum) / line_lengths.length
      else 0
    let max_line_length := line_lengths.foldr max 0
    let varList := assignNames content
    let snake := (varList.filter isSnakeName).length
    let camel := (varList.filter isCamelShape).length
    let naming_consistency : ℚ :=
      if varList ≠ [] then (max snake camel : ℚ) / varList.length else 1
    if code_lines = 0 then mainErrorResult
    else
      let consistent_formatting : ℚ :=
        if (lines.filter (fun l => pyStrip l ≠ [])).all
            (fun l => startsWithL "    ".toList l || startsWithL ['\t'] l)
        then 4/5 else 2/5
      let comprehensive_comments : ℚ :=
        if 1/10 < (comment_lines : ℚ) / total_lines then 9/10 else 3/10
      let structured_functions : ℚ :=
        if 0 < functions.length ∧ functions.all
            (fun f => containsL "\"\"\"".toList f || containsL "'''".toList f)
        then 4/5 else 2/5
      let variable_naming : ℚ := if 4/5 < naming_consistency then 9/10 else 1/2
      let complexity_balance : ℚ :=
        if 1/20 < (complexity_score : ℚ) / code_lines ∧
            (complexity_score : ℚ) / code_lines < 1/5
        then 7/10 else 2/5
      let confidence_score : ℚ :=
        (consistent_formatting + comprehensive_comments + structured_functions +
          variable_naming + complexity_balance) / 5
      let rf_high_complexity := decide (20 < complexity_score)
      let rf_long_lines := decide (100 < max_line_length)
      let rf_poor_commenting :=
        if 0 < total_lines then decide ((comment_lines : ℚ) / total_lines < 1/20)
        else true
      let rf_inconsistent_naming := decide (naming_consistency < 7/10)
      let rf_deep_nesting := deepNesting content
      let risk_score : ℕ :=
        20 * ([rf_high_complexity, rf_long_lines, rf_poor_commenting,
               rf_inconsistent_naming, rf_deep_nesting].filter id).length
      let warnings : List String :=
        (if rf_high_complexity then
          ["High code complexity detected - consider breaking down into smaller functions"] else []) ++
        (if rf_long_lines then
          ["Long lines detected - consider breaking into multiple lines for readability"] else []) ++
        (if rf_poor_commenting then
          ["Low comment ratio - consider adding more documentation"] else []) ++
        (if rf_inconsistent_naming then
          ["Inconsistent variable naming detected - stick to one convention"] else []) ++
        (if rf_deep_nesting then
          ["Deep nesting detected - consider restructuring the code"] else [])
      let prediction := if 3/5 < confidence_score then "AI" else "Human"
      let source_confidence :=
        if prediction = "AI" then confidence_score else 1 - confidence_score
      let vulnerabilities := securityPatternsMain.filterMap (fun e =>
        if reSearch e.2.1 content then
          some ⟨e.1, e.2.2.1, "high", 8, e.2.2.2⟩
        else none)
      { prediction := prediction
        confidence := roundQ 2 (source_confidence * 100)
        risk_score := min 100 risk_score
        source := prediction ++ " (" ++
          toString (roundHalfEven (source_confidence * 100)) ++ "% confidence)"
        analysis_details :=
          { total_lines := total_lines
            code_lines := code_lines
            comment_lines := comment_lines
            empty_lines := empty_lines
            complexity_score := complexity_score
            avg_line_length := roundQ 2 avg_line_length
            max_line_length := max_line_length
            functions_count := functions.length
            classes_count := classes.length }
        security_analysis :=
          { vulnerabilities := vulnerabilities
            code_quality :=
              { indentation_consistency := roundHalfEven (consistent_formatting * 100)
                naming_consistency := roundHalfEven (naming_consistency * 100)
                comment_ratio :=
                  roundQ 2 (if 0 < total_lines then
                    (comment_lines : ℚ) / total_lines * 100 else 0) }
            risk_level :=
              if 70 < risk_score then "high"
              else if 40 < risk_score then "medium" else "low"
            high_risk := decide (70 < risk_score)
            medium_risk := decide (40 < risk_score ∧ risk_score ≤ 70)
            low_risk := decide (risk_score ≤ 40)
            warnings := warnings } }

/-!  ## backend/main.py — analysis cache and HTTP handlers

`analysis_cache` is a plain module-level Python dict; it is modeled as an
insertion-ordered association list with Python-dict update semantics.
Request ids (`uuid.uuid4()`) and timestamps (`datetime.now()`) are
nondeterministic inputs and appear as parameters. -/

/-- One value of `analysis_cache`: the dict written by
`store_analysis_result`. -/
structure CacheEntry where
  status : String
  timestamp : String
  result : MainResult
  repository : Option String
  deriving DecidableEq, Repr

/-- The cache itself. -/
def Cache : Type := List (String × CacheEntry)

/-- Python dict assignment `d[k] = v`: replace in place if the key exists,
otherwise append (dicts preserve insertion order). -/
def dictInsert (k : String) (v : CacheEntry) : Cache → Cache
  | [] => [(k, v)]
  | (k', v') :: t => if k' = k then (k, v) :: t else (k', v') :: dictInsert k v t

/-- Python `k in d` / `d[k]` lookup. -/
def dictLookup (k : String) : Cache → Option CacheEntry
  | [] => none
  | (k', v') :: t => if k' = k then some v' else dictLookup k t

/-- `store_analysis_result` (main.py): unconditionally writes a `completed`
entry under the request id.  There is no capacity check and no eviction. -/
def store_analysis_result (request_id : String) (result : MainResult)
    (repository_url : Option String) (ts : String) (cache : Cache) : Cache :=
  dictInsert request_id ⟨"completed", ts, result, repository_url⟩ cache

/-- An HTTP error response (`HTTPException`). -/
structure HTTPError where
  status_code : ℕ
  detail : String
  deriving DecidableEq, Repr

/-- The `AnalysisResponse` model of main.py. -/
structure AnalysisResponse where
  request_id : String
  status : String
  result : Option MainResult
  error : Option String
  deriving DecidableEq, Repr

/-- `GET /analysis/{request_id}` (main.py).  For an unknown id the handler
raises `HTTPException(404)`, but that exception is itself an `Exception`, so
the handler's blanket `except Exception` catches it and re-raises
`HTTPException(500, str(e))` — the client observes a 500, not a 404
(`str` of the 404 exception renders as shown). -/
def get_analysis_result (request_id : String) (cache : Cache) :
    Except HTTPError AnalysisResponse :=
  match dictLookup request_id cache with
  | none => .error ⟨500, "404: Analysis not found"⟩
  | some a => .ok ⟨request_id, a.status, some a.result, none⟩

/-- `POST /analyze` (main.py).  `sigOK` is the outcome of
`verify_signature` (external crypto).  An invalid signature raises
`HTTPException(401)`, which the handler's blanket `except` re-raises as a
500.  Otherwise the code is analyzed synchronously — `analyze_code_content`
never raises (it swallows its own errors) — the result is stored in the
cache under a fresh id, and a `completed` response is returned. -/
def analyze_code (sigOK : Bool) (request_id ts : String) (code : String)
    (cache : Cache) : Except HTTPError AnalysisResponse × Cache :=
  if !sigOK then (.error ⟨500, "401: Invalid signature"⟩, cache)
  else
    let result := analyze_code_content code
    let cache' := store_analysis_result request_id result none ts cache
    (.ok ⟨request_id, "completed", some result, none⟩, cache')

/-- Storing `n` results sequentially under the ids `ids`, as the `/analyze`
handler does, starting from cache `c0`. -/
def storeAll (ids : List String) (r : MainResult) (ts : String) (c0 : Cache) :
    Cache :=
  ids.foldl (fun acc i => store_analysis_result i r none ts acc) c0

/-- A family of distinct request ids standing in for `uuid.uuid4()` values. -/
def mkJobId (i : ℕ) : String := ⟨List.replicate i 'j'⟩

/-!  ## backend/ml/model.py — `predict_code`  -/

/-- Outcome oracle for `predict_code`'s collaborators: whether
`load_model()` produced a model (it returns `(None, None, None)` when the
files are missing or unreadable), and the result of the
scaler/tokenizer/model inference pipeline — a probability, or an exception
message if any of those steps raises. -/
structure PredictOracle where
  modelLoaded : Bool
  inferStep : Except String ℚ

/-- The dictionary returned by `predict_code`.  `risk_score = none` models
the *absence* of the `'risk_score'` key; `features` is likewise optional
because the error path omits the key entirely while the fallback path maps
it to the empty dict.  Wall-clock fields (`processing_time_ms`) and the
display-only `source_probabilities` are omitted. -/
structure PredictResult where
  prediction : String
  confidence : ℚ
  source : String
  features : Option (List ℚ)
  risk_score : Option ℚ
  security_analysis : SecurityAnalysis
  error : Option String
  deriving DecidableEq, Repr

/-- `result.get('risk_score', 0)` as used by callers. -/
def riskScoreGet (r : PredictResult) : ℚ := r.risk_score.getD 0

/-- `predict_code` (model.py).  With no loaded model it returns the fallback
dictionary, which has *no* `'risk_score'` key.  If the inference pipeline
raises, the blanket `except` returns the error dictionary with
`'risk_score': 0`.  Otherwise the success dictionary carries
`round(security_analysis['risk_level'], 1)`. -/
def predict_code (std : List ℕ → ℚ) (o : PredictOracle) (code : String) :
    PredictResult :=
  if !o.modelLoaded then
    { prediction := "Unknown"
      confidence := 1/2
      source := "Fallback"
      features := some []
      risk_score := none
      security_analysis := analyze_code_vulnerabilities std code
      error := none }
  else
    match o.inferStep with
    | .error e =>
      { prediction := "Error"
        confidence := 0
        source := "Error"
        features := none
        risk_score := some 0
        security_analysis := ⟨[], [], 0, false, false, false⟩
        error := some e }
    | .ok p =>
      let sec := analyze_code_vulnerabilities std code
      let lblsrc : String × String :=
        if 4/5 ≤ p then ("AI", "AI (High Confidence)")
        else if 3/5 ≤ p then ("AI", "AI (Medium Confidence)")
        else if p ≤ 1/5 then ("Human", "Human (High Confidence)")
        else if p ≤ 2/5 then ("Human", "Human (Medium Confidence)")
        else ("Uncertain", "Uncertain")
      { prediction := lblsrc.1
        confidence := roundQ 3 (max p (1 - p))
        source := lblsrc.2
        features := some (extract_code_features std code)
        risk_score := some (roundQ 1 sec.risk_level)
        security_analysis := sec
        error := none }

/-!  ## backend/api/app.py — background GitHub analysis and ledger gating -/

/-- Collaborator oracle for `process_github_analysis`.  `repoStep` is the
`parse_github_url` call plus the `repo_info['branch'] = ...` mutation (with
the real ML module loaded this raises `TypeError`, since the parse result is
a tuple; with the mocked fallback module it succeeds); `fetchStep` the
`fetch_github_code` call (its returned falsy value is modeled as `""`);
`chainStep` the `store_analysis_on_chain` call — `ok (some (tx, url))` for a
`success: True` dict, `ok none` for a returned failure, `error` if the call
itself raises. -/
structure ProcOracle where
  repoStep : Except String Unit
  fetchStep : Except String String
  pOracle : PredictOracle
  chainStep : Except String (Option (String × String))

/-- One snapshot of the job file `analysis_results/{id}.json` (the failed
path stores `{"error": msg}` as the result; modeled by the `error` field). -/
structure JobRecord where
  id : String
  status : String
  result : Option PredictResult
  error : Option String
  blockchain_tx : Option String
  explorer_url : Option String
  deriving DecidableEq, Repr

/-- The initial `processing` snapshot. -/
def processingRec (id : String) : JobRecord := ⟨id, "processing", none, none, none, none⟩

/-- The terminal snapshot written by the `except` handler or by the
fetch-failure branch. -/
def failedRec (id e : String) : JobRecord := ⟨id, "failed", none, some e, none, none⟩

/-- A completed snapshot, with transaction data when a ledger write
succeeded. -/
def completedRec (id : String) (r : PredictResult) (tx : Option (String × String)) :
    JobRecord :=
  ⟨id, "completed", some r, none, tx.map (·.1), tx.map (·.2)⟩

/-- The sequence of job-file snapshots, plus whether
`store_analysis_on_chain` was invoked. -/
structure ProcessOutcome where
  trace : List JobRecord
  chainInvoked : Bool
  deriving Repr

/-- The ledger gating condition of `process_github_analysis`:
`result.get("risk_score", 0) >= 70 or (result.get("prediction") == "AI" and
result.get("confidence", 0) >= 0.8)`. -/
def ledgerGate (r : PredictResult) : Bool :=
  decide ((70 : ℚ) ≤ riskScoreGet r) ||
    (r.prediction = "AI" && decide ((4/5 : ℚ) ≤ r.confidence))

/-- `process_github_analysis` (app.py).  Writes the `processing` snapshot,
runs the fetch and prediction steps, optionally invokes the ledger write,
and always finishes by writing a terminal (`completed`/`failed`) snapshot;
any exception is caught and recorded as `failed` with its message.  A
`pending` status is never written by the background task (it only ever
appears in the immediate HTTP response of the submit endpoint). -/
def process_github_analysis (std : List ℕ → ℚ) (o : ProcOracle) (id : String) :
    ProcessOutcome :=
  let w0 := processingRec id
  match o.repoStep with
  | .error e => ⟨[w0, failedRec id e], false⟩
  | .ok _ =>
    match o.fetchStep with
    | .error e => ⟨[w0, failedRec id e], false⟩
    | .ok code =>
      if code = "" then
        ⟨[w0, failedRec id "Failed to fetch code from GitHub repository"], false⟩
      else
        let result := predict_code std o.pOracle code
        if ledgerGate result then
          match o.chainStep with
          | .error e => ⟨[w0, failedRec id e], true⟩
          | .ok tx => ⟨[w0, completedRec id result tx], true⟩
        else ⟨[w0, completedRec id result none], false⟩

/-!  ## backend/ml/model.py — `parse_github_url`

The four candidate regexes are anchored with `re.match` (prefix match, not
full match) and tried in order.  Each is translated to a deterministic
parser which mirrors the greedy/backtracking behavior of the pattern: a
`([^/]+)` group takes the maximal run of non-slash characters, an optional
`(?:...)?` group matches greedily when its content is present and empty
otherwise, a trailing `(.+)` takes everything up to the first newline.  In
particular pattern 1 already prefix-matches every
`https://github.com/owner/repo...` URL — including blob URLs — so patterns
3 and 4 are unreachable (still translated for fidelity). -/

/-- The captured groups of one parse candidate. -/
structure UrlGroups where
  owner : List Char
  repo : List Char
  branch : Option (List Char)
  path : Option (List Char)

/-- `https?://` — greedy optional `s`. -/
def stripScheme (cs : List Char) : Option (List Char) :=
  if startsWithL "https://".toList cs then some (cs.drop 8)
  else if startsWithL "http://".toList cs then some (cs.drop 7)
  else none

/-- `([^/]+)/` — a non-empty slash-free segment followed by a slash. -/
def segSlash (cs : List Char) : Option (List Char × List Char) :=
  let a := cs.takeWhile (· ≠ '/')
  match cs.dropWhile (· ≠ '/') with
  | '/' :: t => if a = [] then none else some (a, t)
  | _ => none

/-- `([^/]+)` — a non-empty slash-free segment, rest unconstrained. -/
def segAny (cs : List Char) : Option (List Char × List Char) :=
  let a := cs.takeWhile (· ≠ '/')
  if a = [] then none else some (a, cs.dropWhile (· ≠ '/'))

/-- The optional tail `(?:/(.+))?`: the path group is the maximal newline-free
run after a slash when that run is non-empty, and absent otherwise. -/
def optSlashPath (cs : List Char) : Option (List Char) :=
  match cs with
  | '/' :: rest =>
    let p := rest.takeWhile (· ≠ '\n')
    if p = [] then none else some p
  | _ => none

/-- Pattern 1: `https?://github\.com/([^/]+)/([^/]+)(?:/tree/([^/]+)(?:/(.+))?)?` -/
def ghPat1 (cs : List Char) : Option UrlGroups :=
  (stripScheme cs).bind fun r0 =>
  if startsWithL "github.com/".toList r0 then
    (segSlash (r0.drop 11)).bind fun or2 =>
    (segAny or2.2).bind fun rr3 =>
    let rest := rr3.2
    if startsWithL "/tree/".toList rest then
      let r4 := rest.drop 6
      let br := r4.takeWhile (· ≠ '/')
      if br = [] then some ⟨or2.1, rr3.1, none, none⟩
      else some ⟨or2.1, rr3.1, some br, optSlashPath (r4.dropWhile (· ≠ '/'))⟩
    else some ⟨or2.1, rr3.1, none, none⟩
  else none

/-- Pattern 2: `https?://raw\.githubusercontent\.com/([^/]+)/([^/]+)/([^/]+)(?:/(.+))?` -/
def ghPat2 (cs : List Char) : Option UrlGroups :=
  (stripScheme cs).bind fun r0 =>
  if startsWithL "raw.githubusercontent.com/".toList r0 then
    (segSlash (r0.drop 26)).bind fun or2 =>
    (segSlash or2.2).bind fun rr3 =>
    (segAny rr3.2).bind fun br4 =>
    some ⟨or2.1, rr3.1, some br4.1, optSlashPath br4.2⟩
  else none

/-- Pattern 3 (unreachable after pattern 1):
`https?://github\.com/([^/]+)/([^/]+)/blob/([^/]+)(?:/(.+))?` -/
def ghPat3 (cs : List Char) : Option UrlGroups :=
  (stripScheme cs).bind fun r0 =>
  if startsWithL "github.com/".toList r0 then
    (segSlash (r0.drop 11)).bind fun or2 =>
    (segAny or2.2).bind fun rr3 =>
    let rest := rr3.2
    if startsWithL "/blob/".toList rest then
      (segAny (rest.drop 6)).bind fun br4 =>
      some ⟨or2.1, rr3.1, some br4.1, optSlashPath br4.2⟩
    else none
  else none

/-- Pattern 4 (unreachable after pattern 1):
`https?://github\.com/([^/]+)/([^/]+)/?$` — the pattern has only two groups,
so the shared extraction code defaults branch/path.  `$` also matches just
before a final newline. -/
def ghPat4 (cs : List Char) : Option UrlGroups :=
  (stripScheme cs).bind fun r0 =>
  if startsWithL "github.com/".toList r0 then
    (segSlash (r0.drop 11)).bind fun or2 =>
    (segAny or2.2).bind fun rr3 =>
    if rr3.2 = [] ∨ rr3.2 = ['/'] ∨ rr3.2 = ['\n'] ∨ rr3.2 = ['/', '\n'] then
      some ⟨or2.1, rr3.1, none, none⟩
    else none
  else none

/-- `repo[:-4] if repo.endswith('.git') else repo`. -/
def stripGitSuffix (repo : List Char) : List Char :=
  if endsWithL ".git".toList repo then repo.take (repo.length - 4) else repo

/-- The shorthand fallback `^([^/]+)/([^/]+)$`: exactly one slash separating
two non-empty parts (the second may absorb a trailing newline since `[^/]`
matches it and `$` then holds at the true end). -/
def ghShorthand (cs : List Char) : Option (List Char × List Char) :=
  (segSlash cs).bind fun or2 =>
  if or2.2 ≠ [] ∧ or2.2.all (· ≠ '/') then some (or2.1, or2.2) else none

/-- `parse_github_url` (model.py): try the four anchored patterns in order,
strip a trailing `.git` from the repo, default the branch to `main` when the
matched pattern bound no branch group, then fall back to the
`owner/repo` shorthand; `none` otherwise. -/
def parse_github_url (url : String) :
    Option (String × String × String × Option String) :=
  let cs := url.toList
  match ghPat1 cs <|> ghPat2 cs <|> ghPat3 cs <|> ghPat4 cs with
  | some g =>
    some (⟨g.owner⟩, ⟨stripGitSuffix g.repo⟩,
      ⟨(g.branch.getD "main".toList)⟩, g.path.map (⟨·⟩))
  | none =>
    match ghShorthand cs with
    | some (o, r) => some (⟨o⟩, ⟨stripGitSuffix r⟩, "main", none)
    | none => none

/-!  ## Concrete instances used by the closed witness theorems  -/

/-- A concrete stand-in for the abstracted `numpy.std`. -/
def std0 : List ℕ → ℚ := fun _ => 0

/-- Example 3 of the specification: a critical call wrapped in try/except. -/
def ex3 : String := "try:\n    eval(x)\nexcept Exception:\n    pass"

/-- 101 distinct request ids, standing in for 101 `uuid.uuid4()` draws. -/
def ids101 : List String := (List.range 101).map mkJobId

/-- A background-job oracle in which the repo step raises (as it does with
the real ML module loaded, where `repo_info['branch'] = ...` mutates a
tuple). -/
def oracleRepoError : ProcOracle :=
  ⟨.error "TypeError: tuple object does not support item assignment",
    .ok "", ⟨false, .ok 0⟩, .ok none⟩

/-- A background-job oracle that reaches prediction with a high-confidence
AI probability. -/
def oracleHighAI : ProcOracle :=
  ⟨.ok (), .ok "x", ⟨true, .ok (9/10)⟩, .ok none⟩

/-!  # Helper lemmas  -/

theorem dictLookup_dictInsert (k j : String) (v : CacheEntry) (c : Cache) :
    dictLookup j (dictInsert k v c) = if j = k then some v else dictLookup j c := by
  induction c with
  | nil =>
    by_cases h : j = k
    · simp [dictInsert, dictLookup, h]
    · have h' : ¬ k = j := fun hh => h (Eq.symm hh)
      simp [dictInsert, dictLookup, h, h']
  | cons hd tl ih =>
    obtain ⟨k', v'⟩ := hd
    by_cases h1 : k' = k
    · subst h1
      by_cases h2 : j = k'
      · simp [dictInsert, dictLookup, h2]
      · have h2' : ¬ k' = j := fun hh => h2 (Eq.symm hh)
        simp [dictInsert, dictLookup, h2, h2']
    · by_cases h2 : j = k'
      · subst h2
        have : ¬ j = k := fun h => h1 h
        simp [dictInsert, dictLookup, h1, this]
      · have h2' : ¬ k' = j := fun h => h2 h.symm
        simp [dictInsert, dictLookup, h1, h2', ih]

theorem length_dictInsert_of_none (k : String) (v : CacheEntry) (c : Cache)
    (h : dictLookup k c = none) : (dictInsert k v c).length = c.length + 1 := by
  induction c with
  | nil => simp [dictInsert]
  | cons hd tl ih =>
    obtain ⟨k', v'⟩ := hd
    by_cases hk : k' = k
    · simp [dictLookup, hk] at h
    · simp only [dictLookup, if_neg hk] at h
      simp [dictInsert, hk, ih h]

theorem storeAll_lookup_preserved (ids : List String) (r : MainResult) (ts j : String) :
    ∀ c : Cache, dictLookup j c ≠ none →
      dictLookup j (storeAll ids r ts c) ≠ none := by
  induction ids with
  | nil => intro c h; simpa [storeAll] using h
  | cons i tl ih =>
    intro c h
    have : storeAll (i :: tl) r ts c = storeAll tl r ts (store_analysis_result i r none ts c) := rfl
    rw [this]
    apply ih
    rw [store_analysis_result, dictLookup_dictInsert]
    by_cases hij : j = i <;> simp [hij, h]

theorem storeAll_lookup_mem (ids : List String) (r : MainResult) (ts i : String)
    (hi : i ∈ ids) : ∀ c : Cache, dictLookup i (storeAll ids r ts c) ≠ none := by
  induction ids with
  | nil => cases hi
  | cons j tl ih =>
    intro c
    have hstep : storeAll (j :: tl) r ts c = storeAll tl r ts (store_analysis_result j r none ts c) := rfl
    rw [hstep]
    rcases List.mem_cons.1 hi with hij | hmem
    · subst hij
      apply storeAll_lookup_preserved
      rw [store_analysis_result, dictLookup_dictInsert]
      simp
    · exact ih hmem _

theorem storeAll_length (ids : List String) (r : MainResult) (ts : String) :
    ∀ c : Cache, ids.Nodup → (∀ i ∈ ids, dictLookup i c = none) →
      (storeAll ids r ts c).length = c.length + ids.length := by
  induction ids with
  | nil => intro c _ _; simp [storeAll]
  | cons i tl ih =>
    intro c hnd hfresh
    have hstep : storeAll (i :: tl) r ts c = storeAll tl r ts (store_analysis_result i r none ts c) := rfl
    rw [hstep]
    obtain ⟨hni, hndtl⟩ := List.nodup_cons.1 hnd
    have hfresh' : ∀ j ∈ tl, dictLookup j (store_analysis_result i r none ts c) = none := by
      intro j hj
      rw [store_analysis_result, dictLookup_dictInsert]
      have : ¬ j = i := fun h => hni (h ▸ hj)
      simp [this, hfresh j (List.mem_cons_of_mem _ hj)]
    have hlen : (store_analysis_result i r none ts c).length = c.length + 1 :=
      length_dictInsert_of_none _ _ _ (hfresh i (List.mem_cons_self _ _))
    rw [ih _ hndtl hfresh', hlen]
    simp [List.length_cons]
    omega

theorem mkJobId_injective : Function.Injective mkJobId := by
  intro a b h
  have hd := congrArg String.data h
  simp only [mkJobId] at hd
  have := congrArg List.length hd
  simpa using this

/-- The function-finding stage of the scanner, named so membership facts can
be transported into the full report. -/
theorem function_findings_mem (std : List ℕ → ℚ) (code : String) (v : Vulnerability)
    (h : v ∈ dangerousFunctions.filterMap (fun r =>
      if reSearch r.pat code then
        some (if reSearch (guardPat r.pat) code then guardedFinding r
              else ⟨"function", r.name, r.risk, r.score, r.descr⟩)
      else none)) :
    v ∈ (analyze_code_vulnerabilities std code).vulnerabilities := by
  have hv : (analyze_code_vulnerabilities std code).vulnerabilities =
      (dangerousImports.filterMap (fun r =>
        if reSearch r.pat code then some ⟨"import", r.name, r.risk, r.score, r.descr⟩
        else none) ++
       dangerousFunctions.filterMap (fun r =>
        if reSearch r.pat code then
          some (if reSearch (guardPat r.pat) code then guardedFinding r
                else ⟨"function", r.name, r.risk, r.score, r.descr⟩)
        else none)) ++
      vulnPatterns.filterMap (fun r =>
        if reSearch r.pat code then some ⟨"pattern", r.name, r.risk, r.score, r.descr⟩
        else none) := rfl
  rw [hv]
  exact List.mem_append_left _ (List.mem_append_right _ h)

/-!  # Claim theorems  -/

/-- C1 (amended).  For every input text and any value of the abstracted
indentation standard deviation, the report of `analyze_code_vulnerabilities`
(backend/ml/model.py) has a risk score in [0,100], its risk flags are the
bands high ≥ 70, medium 30–69, low < 30 (lower bounds inclusive), and
exactly one of the three flags is true.  (The claim as stated is false of
the other cited report, main.py's `analyze_code_content`; see the
counterexample theorem.) -/
theorem analyze_code_vulnerabilities_risk_bounds_flags (std : List ℕ → ℚ) (code : String) :
    0 ≤ (analyze_code_vulnerabilities std code).risk_level ∧
    (analyze_code_vulnerabilities std code).risk_level ≤ 100 ∧
    ((analyze_code_vulnerabilities std code).high_risk = true ↔
      70 ≤ (analyze_code_vulnerabilities std code).risk_level) ∧
    ((analyze_code_vulnerabilities std code).medium_risk = true ↔
      30 ≤ (analyze_code_vulnerabilities std code).risk_level ∧
        (analyze_code_vulnerabilities std code).risk_level < 70) ∧
    ((analyze_code_vulnerabilities std code).low_risk = true ↔
      (analyze_code_vulnerabilities std code).risk_level < 30) ∧
    (((analyze_code_vulnerabilities std code).high_risk = true ∧
        (analyze_code_vulnerabilities std code).medium_risk = false ∧
        (analyze_code_vulnerabilities std code).low_risk = false) ∨
     ((analyze_code_vulnerabilities std code).high_risk = false ∧
        (analyze_code_vulnerabilities std code).medium_risk = true ∧
        (analyze_code_vulnerabilities std code).low_risk = false) ∨
     ((analyze_code_vulnerabilities std code).high_risk = false ∧
        (analyze_code_vulnerabilities std code).medium_risk = false ∧
        (analyze_code_vulnerabilities std code).low_risk = true)) := by
  obtain ⟨n, hq, hh, hm, hl⟩ :
      ∃ n : ℕ,
        (analyze_code_vulnerabilities std code).risk_level = min 100 ((n : ℚ) * 5 / 2) ∧
        (analyze_code_vulnerabilities std code).high_risk =
          decide ((70 : ℚ) ≤ (analyze_code_vulnerabilities std code).risk_level) ∧
        (analyze_code_vulnerabilities std code).medium_risk =
          decide ((30 : ℚ) ≤ (analyze_code_vulnerabilities std code).risk_level ∧
            (analyze_code_vulnerabilities std code).risk_level < 70) ∧
        (analyze_code_vulnerabilities std code).low_risk =
          decide ((analyze_code_vulnerabilities std code).risk_level < (30 : ℚ)) :=
    ⟨_, rfl, rfl, rfl, rfl⟩
  have h0 : 0 ≤ (analyze_code_vulnerabilities std code).risk_level := by
    rw [hq]
    have : (0 : ℚ) ≤ (n : ℚ) * 5 / 2 := by positivity
    exact le_min (by norm_num) this
  have h100 : (analyze_code_vulnerabilities std code).risk_level ≤ 100 := by
    rw [hq]; exact min_le_left _ _
  refine ⟨h0, h100, ?_, ?_, ?_, ?_⟩
  · rw [hh, decide_eq_true_eq]
  · rw [hm, decide_eq_true_eq]
  · rw [hl, decide_eq_true_eq]
  · rcases lt_or_le (analyze_code_vulnerabilities std code).risk_level 30 with h30 | h30
    · refine Or.inr (Or.inr ⟨?_, ?_, ?_⟩)
      · rw [hh, decide_eq_false_iff_not]; intro h; linarith
      · rw [hm, decide_eq_false_iff_not]; intro h; linarith [h.1]
      · rw [hl, decide_eq_true_eq]; exact h30
    · rcases lt_or_le (analyze_code_vulnerabilities std code).risk_level 70 with h70 | h70
      · refine Or.inr (Or.inl ⟨?_, ?_, ?_⟩)
        · rw [hh, decide_eq_false_iff_not]; intro h; linarith
        · rw [hm, decide_eq_true_eq]; exact ⟨h30, h70⟩
        · rw [hl, decide_eq_false_iff_not]; intro h; linarith
      · refine Or.inl ⟨?_, ?_, ?_⟩
        · rw [hh, decide_eq_true_eq]; exact h70
        · rw [hm, decide_eq_false_iff_not]; intro h; linarith [h.2]
        · rw [hl, decide_eq_false_iff_not]; intro h; linarith

/-- C1 (counterexample).  For the cited main.py report, the empty input
reaches the error fallback of `analyze_code_content` and *none* of the three
risk flags is true, so "exactly one of the three flags is true for every
input text" fails on the code as written. -/
theorem analyze_code_content_empty_all_flags_false :
    (analyze_code_content "").security_analysis.high_risk = false ∧
    (analyze_code_content "").security_analysis.medium_risk = false ∧
    (analyze_code_content "").security_analysis.low_risk = false ∧
    (analyze_code_content "").risk_score = 0 :=
  ⟨rfl, rfl, rfl, rfl⟩

/-- C3.  For every input text and every dangerous-function rule whose
pattern matches and whose try/except guard pattern also matches, the scanner
still emits the finding — reduced, never removed — with score
`max 1 (base / 2)`, tier recomputed from the reduced score (`low` below 4,
`medium` otherwise), and the guarded note appended to the description. -/
theorem guarded_finding_reduced_not_removed (std : List ℕ → ℚ) (code : String)
    (r : VulnRule) (hr : r ∈ dangerousFunctions)
    (hmatch : reSearch r.pat code = true)
    (hguard : reSearch (guardPat r.pat) code = true) :
    guardedFinding r ∈ (analyze_code_vulnerabilities std code).vulnerabilities := by
  apply function_findings_mem
  refine List.mem_filterMap.2 ⟨r, hr, ?_⟩
  rw [if_pos hmatch, if_pos hguard]

/-- C3 witness: Example 3 of the specification, the `eval` rule on
`"try:\n    eval(x)\nexcept Exception:\n    pass"` — base score 10 halves to
5, tier drops from critical to medium, the guarded note is appended, and the
finding is present in the report. -/
theorem guarded_finding_reduced_not_removed_witness :
    reSearch evalRule.pat ex3 = true ∧
    reSearch (guardPat evalRule.pat) ex3 = true ∧
    guardedFinding evalRule =
      ⟨"function", "Arbitrary Code Execution", "medium", 5,
        "eval() can execute arbitrary code and is extremely dangerous (appears to be in a try-except block)"⟩ ∧
    guardedFinding evalRule ∈ (analyze_code_vulnerabilities std0 ex3).vulnerabilities := by
  refine ⟨by decide, by decide, by decide, ?_⟩
  exact guarded_finding_reduced_not_removed std0 ex3 evalRule
    (by simp [dangerousFunctions]) (by decide) (by decide)

/-- C5.  main.py's `GET /analysis/{id}` deliberately raises
`HTTPException(404)` for an unknown id, but its blanket
`except Exception` swallows that exception and re-raises it as a 500; the
client observes HTTP 500, contradicting the spec's (and the handler's own)
not-found intent.  (app.py's sibling handler re-raises the `HTTPException`
unchanged, showing the intended pattern.) -/
theorem get_analysis_unknown_id_returns_500 :
    get_analysis_result "missing-id" ([] : Cache) =
      .error ⟨500, "404: Analysis not found"⟩ := rfl

/-- C7.  For every input string feature extraction is total and returns all
16 named metrics of `FEATURE_NAMES`; on the empty string the values are the
well-defined neutral defaults (one line, zero counts, consistency metrics 1,
complexity 1). -/
theorem extract_code_features_total_sixteen_defaults (std : List ℕ → ℚ) :
    (∀ code, (extract_code_features std code).length = FEATURE_NAMES.length) ∧
    FEATURE_NAMES.length = 16 ∧
    extract_code_features std "" = [1, 0, 0, 0, 0, 0, 0, 0, 1, 0, 1, 0, 1, 0, 0, 0] := by
  refine ⟨fun code => rfl, rfl, ?_⟩
  have hf : ((splitNL ("" : String).toList).filter (fun l => decide (pyStrip l ≠ []))) = [] := by
    decide
  have h : calculate_indentation_consistency std "" = 1 := by
    simp only [calculate_indentation_consistency, hf]
    exact if_pos trivial
  simp only [extract_code_features, h]
  norm_num
  decide

/-- C2 (amended).  The analysis cache of backend/main.py is an *unbounded*
dict: `store_analysis_result` never evicts, so storing any number of results
under distinct ids leaves every one of them retrievable and the cache holds
exactly as many entries as there were stores. -/
theorem cache_unbounded_all_ids_retrievable (ids : List String) (r : MainResult)
    (ts : String) (h : ids.Nodup) :
    (storeAll ids r ts []).length = ids.length ∧
    ∀ i ∈ ids, dictLookup i (storeAll ids r ts []) ≠ none := by
  constructor
  · have hlen := storeAll_length ids r ts [] h (fun i _ => rfl)
    simpa using hlen
  · intro i hi
    exact storeAll_lookup_mem ids r ts i hi []

/-- C2 witness: three sequential stores under distinct ids leave a cache of
three entries, all retrievable. -/
theorem cache_unbounded_all_ids_retrievable_witness :
    (storeAll [mkJobId 1, mkJobId 2, mkJobId 3] mainErrorResult "t0" []).length = 3 ∧
    ∀ i ∈ [mkJobId 1, mkJobId 2, mkJobId 3],
      dictLookup i (storeAll [mkJobId 1, mkJobId 2, mkJobId 3] mainErrorResult "t0" []) ≠ none :=
  cache_unbounded_all_ids_retrievable [mkJobId 1, mkJobId 2, mkJobId 3]
    mainErrorResult "t0" (by decide)

/-- C2 (counterexample).  After 101 sequential stores under distinct request
ids the cache holds 101 entries — beyond the claimed capacity of 100 — and
the *first* id is still retrievable, so no oldest-first eviction takes
place. -/
theorem cache_101_insertions_first_id_still_retrievable :
    100 < (storeAll ids101 mainErrorResult "t0" []).length ∧
    dictLookup (mkJobId 0) (storeAll ids101 mainErrorResult "t0" []) ≠ none := by
  have hnd : ids101.Nodup := by
    unfold ids101
    exact (List.nodup_range 101).map mkJobId_injective
  constructor
  · have hlen := storeAll_length ids101 mainErrorResult "t0" [] hnd (fun i _ => rfl)
    have h101 : ids101.length = 101 := by unfold ids101; simp
    simp only [List.length_nil, Nat.zero_add, h101] at hlen
    omega
  · apply storeAll_lookup_mem
    unfold ids101
    exact List.mem_map.2 ⟨0, List.mem_range.2 (by norm_num), rfl⟩

/-- C6 (amended).  Submitting empty or whitespace-only code with a valid
signature is *not* rejected: `analyze_code_content` swallows its own
`ValueError`, the `/analyze` handler stores the resulting error report in
the cache under the fresh request id, and the caller receives a `completed`
response carrying that error report. -/
theorem analyze_endpoint_empty_code_completed_and_cached (id ts code : String)
    (cache : Cache) (h : pyStrip code.toList = []) :
    (analyze_code true id ts code cache).1 =
      .ok ⟨id, "completed", some mainErrorResult, none⟩ ∧
    dictLookup id (analyze_code true id ts code cache).2 =
      some ⟨"completed", ts, mainErrorResult, none⟩ := by
  have hr : analyze_code_content code = mainErrorResult := by
    simp only [analyze_code_content]
    rw [if_pos h]
  have h1 : (analyze_code true id ts code cache).1 =
      .ok ⟨id, "completed", some (analyze_code_content code), none⟩ := rfl
  have h2 : (analyze_code true id ts code cache).2 =
      store_analysis_result id (analyze_code_content code) none ts cache := rfl
  constructor
  · rw [h1, hr]
  · rw [h2, hr, store_analysis_result, dictLookup_dictInsert]
    simp

/-- C6 witness: the empty submission, concretely. -/
theorem analyze_endpoint_empty_code_completed_and_cached_witness :
    (analyze_code true "req-1" "t0" "" ([] : Cache)).1 =
      .ok ⟨"req-1", "completed", some mainErrorResult, none⟩ ∧
    dictLookup "req-1" (analyze_code true "req-1" "t0" "" ([] : Cache)).2 =
      some ⟨"completed", "t0", mainErrorResult, none⟩ :=
  analyze_endpoint_empty_code_completed_and_cached "req-1" "t0" "" [] rfl

/-- C6 (counterexample).  A cache entry *is* created for the empty
submission and the response status is `completed`, not a rejection — the
claim's "no job (no cache/store entry) is ever created" fails on the code. -/
theorem analyze_endpoint_empty_code_creates_cache_entry :
    (analyze_code true "req-1" "t0" "" ([] : Cache)).2 =
      [("req-1", ⟨"completed", "t0", mainErrorResult, none⟩)] ∧
    (analyze_code true "req-1" "t0" "" ([] : Cache)).1 =
      .ok ⟨"req-1", "completed", some mainErrorResult, none⟩ :=
  ⟨rfl, rfl⟩

/-- The gating boolean, restated as the proposition of the specification. -/
theorem ledgerGate_eq_true_iff (r : PredictResult) :
    ledgerGate r = true ↔
      ((70 : ℚ) ≤ riskScoreGet r ∨
        (r.prediction = "AI" ∧ (4/5 : ℚ) ≤ r.confidence)) := by
  simp [ledgerGate, Bool.or_eq_true, Bool.and_eq_true, decide_eq_true_eq]

/-- C4.  The background analysis always writes the `processing` snapshot and
then exactly one terminal snapshot: any failing step turns the job `failed`
with the exception message captured in the record, no job is left in
`processing`, and a `pending` status is never stored at all — so a
terminal job can never be observed as `pending` afterwards. -/
theorem process_github_analysis_lifecycle (std : List ℕ → ℚ) (o : ProcOracle)
    (id : String) :
    (∃ last, (process_github_analysis std o id).trace = [processingRec id, last] ∧
      (last.status = "completed" ∨ last.status = "failed")) ∧
    (∀ r ∈ (process_github_analysis std o id).trace, r.status ≠ "pending") ∧
    (∀ e, o.repoStep = .error e →
      (process_github_analysis std o id).trace = [processingRec id, failedRec id e]) ∧
    (∀ e, o.repoStep = .ok () → o.fetchStep = .error e →
      (process_github_analysis std o id).trace = [processingRec id, failedRec id e]) := by
  obtain ⟨rs, fs, po, cs⟩ := o
  have hmain : ∃ last,
      (process_github_analysis std ⟨rs, fs, po, cs⟩ id).trace = [processingRec id, last] ∧
      (last.status = "completed" ∨ last.status = "failed") := by
    cases rs with
    | error e => exact ⟨failedRec id e, rfl, Or.inr rfl⟩
    | ok u =>
      cases fs with
      | error e => exact ⟨failedRec id e, rfl, Or.inr rfl⟩
      | ok code =>
        by_cases hc : code = ""
        · subst hc
          exact ⟨failedRec id "Failed to fetch code from GitHub repository",
            rfl, Or.inr rfl⟩
        · by_cases hg : ledgerGate (predict_code std po code) = true
          · cases cs with
            | error e =>
              refine ⟨failedRec id e, ?_, Or.inr rfl⟩
              simp only [process_github_analysis]
              rw [if_neg hc, if_pos hg]
            | ok tx =>
              refine ⟨completedRec id (predict_code std po code) tx, ?_, Or.inl rfl⟩
              simp only [process_github_analysis]
              rw [if_neg hc, if_pos hg]
          · refine ⟨completedRec id (predict_code std po code) none, ?_, Or.inl rfl⟩
            simp only [process_github_analysis]
            rw [if_neg hc, if_neg hg]
  refine ⟨hmain, ?_, ?_, ?_⟩
  · intro r hr
    obtain ⟨last, htr, hl⟩ := hmain
    rw [htr] at hr
    rcases List.mem_cons.1 hr with h | h
    · subst h
      show (processingRec id).status ≠ "pending"
      simp [processingRec]
    · rcases List.mem_cons.1 h with h' | h'
      · subst h'
        rcases hl with hc | hc <;> (rw [hc]; simp)
      · exact absurd h' (List.not_mem_nil _)
  · intro e he
    cases rs with
    | ok u => simp at he
    | error e' =>
      have he' : (Except.error e' : Except String Unit) = Except.error e := he
      injection he' with h
      subst h
      rfl
  · intro e hrs hfs
    cases rs with
    | error e' => simp at hrs
    | ok u =>
      cases u
      cases fs with
      | ok code => simp at hfs
      | error e' =>
        have he' : (Except.error e' : Except String String) = Except.error e := hfs
        injection he' with h
        subst h
        rfl

/-- C4 witness: with the repo step raising (as it does with the real ML
module loaded), the trace is exactly processing followed by failed, with the
message captured. -/
theorem process_github_analysis_lifecycle_witness :
    (process_github_analysis std0 oracleRepoError "job-1").trace =
      [processingRec "job-1",
       failedRec "job-1" "TypeError: tuple object does not support item assignment"] :=
  (process_github_analysis_lifecycle std0 oracleRepoError "job-1").2.2.1 _ rfl

/-- C8.  `store_analysis_on_chain` is invoked exactly when the pipeline
reaches a computed result whose risk score (`result.get('risk_score', 0)`)
is at least 70 or whose authorship prediction is `AI` with confidence at
least 0.8; on every other run the ledger collaborator is never invoked. -/
theorem ledger_write_gating_iff (std : List ℕ → ℚ) (o : ProcOracle) (id : String) :
    (process_github_analysis std o id).chainInvoked = true ↔
      ∃ code, o.repoStep = .ok () ∧ o.fetchStep = .ok code ∧ code ≠ "" ∧
        ((70 : ℚ) ≤ riskScoreGet (predict_code std o.pOracle code) ∨
         ((predict_code std o.pOracle code).prediction = "AI" ∧
          (4/5 : ℚ) ≤ (predict_code std o.pOracle code).confidence)) := by
  obtain ⟨rs, fs, po, cs⟩ := o
  constructor
  · intro hinv
    cases rs with
    | error e => simp [process_github_analysis] at hinv
    | ok u =>
      cases u
      cases fs with
      | error e => simp [process_github_analysis] at hinv
      | ok code =>
        by_cases hc : code = ""
        · subst hc
          simp [process_github_analysis] at hinv
        · by_cases hg : ledgerGate (predict_code std po code) = true
          · exact ⟨code, rfl, rfl, hc, (ledgerGate_eq_true_iff _).1 hg⟩
          · exfalso
            simp only [process_github_analysis] at hinv
            rw [if_neg hc, if_neg hg] at hinv
            simp at hinv
  · rintro ⟨code, hrs, hfs, hc, hcond⟩
    cases rs with
    | error e => simp at hrs
    | ok u =>
      cases u
      cases fs with
      | error e => simp at hfs
      | ok code' =>
        have he' : (Except.ok code' : Except String String) = Except.ok code := hfs
        injection he' with h
        subst h
        have hg : ledgerGate (predict_code std po code') = true :=
          (ledgerGate_eq_true_iff _).2 hcond
        simp only [process_github_analysis]
        rw [if_neg hc, if_pos hg]
        cases cs with
        | error e => rfl
        | ok tx => rfl

/-- C8 witness: a run whose prediction is AI at probability 0.9 (confidence
0.9 ≥ 0.8) invokes the ledger write. -/
theorem ledger_write_gating_iff_witness :
    (process_github_analysis std0 oracleHighAI "job-2").chainInvoked = true := by
  apply (ledger_write_gating_iff std0 oracleHighAI "job-2").2
  refine ⟨"x", rfl, rfl, by decide, Or.inr ⟨?_, ?_⟩⟩
  · simp only [oracleHighAI, predict_code]
    norm_num
  · simp only [oracleHighAI, predict_code]
    norm_num [roundQ, roundHalfEven]

/-- C9.  When the trained model fails to load, `predict_code` returns the
fallback dictionary with *no* `'risk_score'` key, so a caller reading
`result.get('risk_score', 0)` sees 0; when the model is loaded, both the
success and the exception paths always carry a `'risk_score'` key. -/
theorem predict_code_fallback_lacks_risk_score (std : List ℕ → ℚ)
    (o : PredictOracle) (code : String) :
    (o.modelLoaded = false →
      (predict_code std o code).risk_score = none ∧
      riskScoreGet (predict_code std o code) = 0) ∧
    (o.modelLoaded = true → ∃ q, (predict_code std o code).risk_score = some q) := by
  obtain ⟨ml, infr⟩ := o
  constructor
  · intro h
    subst h
    constructor <;> simp [predict_code, riskScoreGet]
  · intro h
    subst h
    cases infr with
    | error e => exact ⟨0, by simp [predict_code]⟩
    | ok p =>
      refine ⟨roundQ 1 (analyze_code_vulnerabilities std code).risk_level, ?_⟩
      simp [predict_code]

/-- C9 witness: the fallback result for a concrete input carries no risk
score and reads as zero risk through `get('risk_score', 0)`. -/
theorem predict_code_fallback_lacks_risk_score_witness :
    (predict_code std0 ⟨false, Except.ok 0⟩ "eval(x)").risk_score = none ∧
    riskScoreGet (predict_code std0 ⟨false, Except.ok 0⟩ "eval(x)") = 0 :=
  (predict_code_fallback_lacks_risk_score std0 ⟨false, Except.ok 0⟩ "eval(x)").1 rfl

/-!  ## URL-parser lemmas (C10)  -/

theorem toList_append (s t : String) : (s ++ t).toList = s.toList ++ t.toList := rfl

theorem startsWithL_append (p t : List Char) : startsWithL p (p ++ t) = true := by
  induction p with
  | nil => rfl
  | cons c cs ih => simp [startsWithL, ih]

theorem startsWithL_iff_append (p s : List Char) :
    startsWithL p s = true ↔ ∃ t, s = p ++ t := by
  induction p generalizing s with
  | nil => simp [startsWithL]
  | cons c cs ih =>
    cases s with
    | nil => simp [startsWithL]
    | cons d ds =>
      simp only [startsWithL, Bool.and_eq_true, decide_eq_true_eq, ih, List.cons_append]
      constructor
      · rintro ⟨h1, t, h2⟩
        exact ⟨t, by rw [h1, h2]⟩
      · rintro ⟨t, h⟩
        injection h with h1 h2
        exact ⟨h1.symm, t, h2⟩

theorem takeWhile_append_stop (q : Char → Bool) (a b : List Char) (x : Char)
    (ha : ∀ c ∈ a, q c = true) (hx : q x = false) :
    (a ++ x :: b).takeWhile q = a := by
  rw [List.takeWhile_append_of_pos ha]
  simp [List.takeWhile, hx]

theorem dropWhile_append_stop (q : Char → Bool) (a b : List Char) (x : Char)
    (ha : ∀ c ∈ a, q c = true) (hx : q x = false) :
    (a ++ x :: b).dropWhile q = x :: b := by
  rw [List.dropWhile_append_of_pos ha]
  simp [List.dropWhile, hx]

theorem takeWhile_all_true (q : Char → Bool) (a : List Char) (ha : ∀ c ∈ a, q c = true) :
    a.takeWhile q = a := by
  have := @List.takeWhile_append_of_pos Char q a [] ha
  simpa using this

theorem dropWhile_all_true (q : Char → Bool) (a : List Char) (ha : ∀ c ∈ a, q c = true) :
    a.dropWhile q = [] := by
  have := @List.dropWhile_append_of_pos Char q a [] ha
  simpa using this

theorem segSlash_eval (a b : List Char) (h0 : a ≠ []) (h : ∀ c ∈ a, c ≠ '/') :
    segSlash (a ++ '/' :: b) = some (a, b) := by
  have ha : ∀ c ∈ a, (fun c => decide (c ≠ '/')) c = true := fun c hc => by simp [h c hc]
  simp only [segSlash, takeWhile_append_stop _ a b '/' ha (by simp),
    dropWhile_append_stop _ a b '/' ha (by simp)]
  simp [h0]

theorem segAny_cons_slash (a b : List Char) (h0 : a ≠ []) (h : ∀ c ∈ a, c ≠ '/') :
    segAny (a ++ '/' :: b) = some (a, '/' :: b) := by
  have ha : ∀ c ∈ a, (fun c => decide (c ≠ '/')) c = true := fun c hc => by simp [h c hc]
  simp only [segAny, takeWhile_append_stop _ a b '/' ha (by simp),
    dropWhile_append_stop _ a b '/' ha (by simp)]
  simp [h0]

theorem segAny_self (a : List Char) (h0 : a ≠ []) (h : ∀ c ∈ a, c ≠ '/') :
    segAny a = some (a, []) := by
  have ha : ∀ c ∈ a, (fun c => decide (c ≠ '/')) c = true := fun c hc => by simp [h c hc]
  simp only [segAny, takeWhile_all_true _ a ha, dropWhile_all_true _ a ha]
  simp [h0]

theorem stripScheme_https (t : List Char) :
    stripScheme ("https://".toList ++ t) = some t := by
  simp only [stripScheme, startsWithL_append, if_pos]
  rw [List.drop_left' (by rfl : ("https://".toList).length = 8)]

/-- On an `owner/repo` shorthand neither scheme prefix can match: the first
slash of the input sits at the end of the slash-free owner, which is
incompatible with the slash positions of `http://` and `https://`. -/
theorem stripScheme_shorthand_none (o r : List Char)
    (_ho0 : o ≠ []) (ho : ∀ c ∈ o, c ≠ '/') (hr : ∀ c ∈ r, c ≠ '/') :
    stripScheme (o ++ '/' :: r) = none := by
  have hoq : ∀ c ∈ o, (fun c => decide (c ≠ '/')) c = true := fun c hc => by simp [ho c hc]
  have hslash : ¬ ('/' ∈ r) := fun h => hr '/' h rfl
  have key : ∀ pre rest : List Char, (∀ c ∈ pre, c ≠ '/') →
      o ++ '/' :: r ≠ pre ++ '/' :: '/' :: rest := by
    intro pre rest hpre habs
    have hpq : ∀ c ∈ pre, (fun c => decide (c ≠ '/')) c = true :=
      fun c hc => by simp [hpre c hc]
    have h1 : (o ++ '/' :: r).dropWhile (fun c => decide (c ≠ '/')) = '/' :: r :=
      dropWhile_append_stop _ o r '/' hoq (by simp)
    rw [habs, dropWhile_append_stop _ pre ('/' :: rest) '/' hpq (by simp)] at h1
    injection h1 with h1a h1b
    exact hslash (h1b ▸ List.mem_cons_self '/' rest)
  simp only [stripScheme]
  rw [if_neg, if_neg]
  · intro habs
    obtain ⟨t, ht⟩ := (startsWithL_iff_append _ _).1 habs
    exact key "http:".toList t (by decide) (by simpa using ht)
  · intro habs
    obtain ⟨t, ht⟩ := (startsWithL_iff_append _ _).1 habs
    exact key "https:".toList t (by decide) (by simpa using ht)

theorem stripGit_append (r : List Char) :
    stripGitSuffix (r ++ ".git".toList) = r := by
  have hend : endsWithL ".git".toList (r ++ ".git".toList) = true := by
    simp only [endsWithL]
    rw [List.reverse_append]
    exact startsWithL_append _ _
  simp only [stripGitSuffix, hend, if_pos]
  have hlen : (r ++ ".git".toList).length - 4 = r.length := by
    rw [List.length_append]
    simp
  rw [hlen]
  exact List.take_left' rfl

theorem ghPat1_tree (o r br p : List Char)
    (ho0 : o ≠ []) (ho : ∀ c ∈ o, c ≠ '/')
    (hr0 : r ≠ []) (hr : ∀ c ∈ r, c ≠ '/')
    (hb0 : br ≠ []) (hb : ∀ c ∈ br, c ≠ '/')
    (hp0 : p ≠ []) (hp : ∀ c ∈ p, c ≠ '\n') :
    ghPat1 ("https://".toList ++ ("github.com/".toList ++
        (o ++ '/' :: (r ++ '/' :: 't' :: 'r' :: 'e' :: 'e' :: '/' :: (br ++ '/' :: p))))) =
      some ⟨o, r, some br, some p⟩ := by
  have hbq : ∀ c ∈ br, (fun c => decide (c ≠ '/')) c = true := fun c hc => by simp [hb c hc]
  have hpq : ∀ c ∈ p, (fun c => decide (c ≠ '\n')) c = true := fun c hc => by simp [hp c hc]
  simp only [ghPat1, stripScheme_https, Option.some_bind, startsWithL_append, if_pos]
  rw [List.drop_left' (by rfl : ("github.com/".toList).length = 11)]
  rw [segSlash_eval o _ ho0 ho]
  simp only [Option.some_bind]
  rw [segAny_cons_slash r _ hr0 hr]
  simp only [Option.some_bind]
  have htree : startsWithL "/tree/".toList
      ('/' :: 't' :: 'r' :: 'e' :: 'e' :: '/' :: (br ++ '/' :: p)) = true :=
    startsWithL_append "/tree/".toList (br ++ '/' :: p)
  rw [if_pos htree]
  rw [show List.drop 6 ('/' :: 't' :: 'r' :: 'e' :: 'e' :: '/' :: (br ++ '/' :: p)) =
      br ++ '/' :: p from rfl]
  rw [takeWhile_append_stop _ br p '/' hbq (by simp)]
  rw [if_neg hb0]
  rw [dropWhile_append_stop _ br p '/' hbq (by simp)]
  simp only [optSlashPath]
  rw [takeWhile_all_true _ p hpq]
  simp [hp0]

/-- The first pattern on a URL whose tail after the repo does *not* begin
with `/tree/` (blob URLs, bare repo URLs): branch and path groups are empty,
so the caller defaults the branch to `main`. -/
theorem ghPat1_noTree (o X r rest : List Char)
    (ho0 : o ≠ []) (ho : ∀ c ∈ o, c ≠ '/')
    (hseg : segAny X = some (r, rest))
    (hnt : startsWithL "/tree/".toList rest = false) :
    ghPat1 ("https://".toList ++ ("github.com/".toList ++ (o ++ '/' :: X))) =
      some ⟨o, r, none, none⟩ := by
  simp only [ghPat1, stripScheme_https, Option.some_bind, startsWithL_append, if_pos]
  rw [List.drop_left' (by rfl : ("github.com/".toList).length = 11)]
  rw [segSlash_eval o _ ho0 ho]
  simp only [Option.some_bind]
  rw [hseg]
  simp only [Option.some_bind]
  have hnt' : startsWithL ['/', 't', 'r', 'e', 'e', '/'] rest = false := hnt
  rw [if_neg (by simp [hnt'])]

theorem ghPat2_raw (o r br p : List Char)
    (ho0 : o ≠ []) (ho : ∀ c ∈ o, c ≠ '/')
    (hr0 : r ≠ []) (hr : ∀ c ∈ r, c ≠ '/')
    (hb0 : br ≠ []) (hb : ∀ c ∈ br, c ≠ '/')
    (hp0 : p ≠ []) (hp : ∀ c ∈ p, c ≠ '\n') :
    ghPat2 ("https://".toList ++ ("raw.githubusercontent.com/".toList ++
        (o ++ '/' :: (r ++ '/' :: (br ++ '/' :: p))))) =
      some ⟨o, r, some br, some p⟩ := by
  have hpq : ∀ c ∈ p, (fun c => decide (c ≠ '\n')) c = true := fun c hc => by simp [hp c hc]
  simp only [ghPat2, stripScheme_https, Option.some_bind, startsWithL_append, if_pos]
  rw [List.drop_left' (by rfl : ("raw.githubusercontent.com/".toList).length = 26)]
  rw [segSlash_eval o _ ho0 ho]
  simp only [Option.some_bind]
  rw [segSlash_eval r _ hr0 hr]
  simp only [Option.some_bind]
  rw [segAny_cons_slash br _ hb0 hb]
  simp only [Option.some_bind, optSlashPath]
  rw [takeWhile_all_true _ p hpq]
  simp [hp0]

/-- The first pattern rejects raw-content URLs (`raw.` is not `github.com/`). -/
theorem ghPat1_raw_none (t : List Char) :
    ghPat1 ("https://".toList ++ ("raw.githubusercontent.com/".toList ++ t)) = none := by
  simp only [ghPat1, stripScheme_https, Option.some_bind]
  rw [if_neg]
  intro habs
  obtain ⟨u, hu⟩ := (startsWithL_iff_append _ _).1 habs
  have h0 := congrArg (fun l => l.headD ' ') hu
  simp at h0

theorem mk_toList (s : String) : (⟨s.toList⟩ : String) = s := rfl

/-- C10 (amended).  `parse_github_url` prefix-matches its candidate regexes
in order, so: a `/tree/` URL parses with its branch and path; a `/blob/`
URL is captured by the *first* pattern, whose optional `/tree/` group stays
empty — the URL-named branch is dropped and the result is branch `main`
with no path (the dedicated blob pattern is unreachable); a bare repo URL
parses with branch `main`; a trailing `.git` is always stripped from the
repo; a raw-content URL parses with its branch; and the `owner/repo`
shorthand parses with branch `main`.  Hypotheses: owner, repo and branch
segments are non-empty and slash-free, the path is non-empty and
newline-free. -/
theorem parse_github_url_shapes (o r br p : String)
    (ho0 : o.toList ≠ []) (ho : ∀ c ∈ o.toList, c ≠ '/')
    (hr0 : r.toList ≠ []) (hr : ∀ c ∈ r.toList, c ≠ '/')
    (hb0 : br.toList ≠ []) (hb : ∀ c ∈ br.toList, c ≠ '/')
    (hp0 : p.toList ≠ []) (hp : ∀ c ∈ p.toList, c ≠ '\n') :
    parse_github_url ("https://github.com/" ++ o ++ "/" ++ r ++ "/tree/" ++ br ++ "/" ++ p) =
      some (o, ⟨stripGitSuffix r.toList⟩, br, some p) ∧
    parse_github_url ("https://github.com/" ++ o ++ "/" ++ r ++ "/blob/" ++ br ++ "/" ++ p) =
      some (o, ⟨stripGitSuffix r.toList⟩, "main", none) ∧
    parse_github_url ("https://github.com/" ++ o ++ "/" ++ r) =
      some (o, ⟨stripGitSuffix r.toList⟩, "main", none) ∧
    parse_github_url ("https://github.com/" ++ o ++ "/" ++ r ++ ".git") =
      some (o, r, "main", none) ∧
    parse_github_url ("https://raw.githubusercontent.com/" ++ o ++ "/" ++ r ++ "/" ++ br ++ "/" ++ p) =
      some (o, ⟨stripGitSuffix r.toList⟩, br, some p) ∧
    parse_github_url (o ++ "/" ++ r) =
      some (o, ⟨stripGitSuffix r.toList⟩, "main", none) := by
  refine ⟨?_, ?_, ?_, ?_, ?_, ?_⟩
  · -- tree URL
    have hcs : ("https://github.com/" ++ o ++ "/" ++ r ++ "/tree/" ++ br ++ "/" ++ p).toList =
        "https://".toList ++ ("github.com/".toList ++
          (o.toList ++ '/' :: (r.toList ++ '/' :: 't' :: 'r' :: 'e' :: 'e' :: '/' ::
            (br.toList ++ '/' :: p.toList)))) := by
      simp only [toList_append]
      rw [show "https://github.com/".toList = "https://".toList ++ "github.com/".toList from rfl,
          show ("/" : String).toList = ['/'] from rfl,
          show ("/tree/" : String).toList = ['/', 't', 'r', 'e', 'e', '/'] from rfl]
      simp [List.append_assoc]
    have h1 := ghPat1_tree o.toList r.toList br.toList p.toList ho0 ho hr0 hr hb0 hb hp0 hp
    simp only [parse_github_url, hcs, h1, Option.some_orElse]
    simp [Option.getD, Option.map, mk_toList]
  · -- blob URL: captured by the first pattern, branch dropped
    have hcs : ("https://github.com/" ++ o ++ "/" ++ r ++ "/blob/" ++ br ++ "/" ++ p).toList =
        "https://".toList ++ ("github.com/".toList ++
          (o.toList ++ '/' :: (r.toList ++ '/' :: 'b' :: 'l' :: 'o' :: 'b' :: '/' ::
            (br.toList ++ '/' :: p.toList)))) := by
      simp only [toList_append]
      rw [show "https://github.com/".toList = "https://".toList ++ "github.com/".toList from rfl,
          show ("/" : String).toList = ['/'] from rfl,
          show ("/blob/" : String).toList = ['/', 'b', 'l', 'o', 'b', '/'] from rfl]
      simp [List.append_assoc]
    have hseg := segAny_cons_slash r.toList
      ('b' :: 'l' :: 'o' :: 'b' :: '/' :: (br.toList ++ '/' :: p.toList)) hr0 hr
    have h1 := ghPat1_noTree o.toList
      (r.toList ++ '/' :: 'b' :: 'l' :: 'o' :: 'b' :: '/' :: (br.toList ++ '/' :: p.toList))
      r.toList ('/' :: 'b' :: 'l' :: 'o' :: 'b' :: '/' :: (br.toList ++ '/' :: p.toList))
      ho0 ho hseg (by simp [startsWithL])
    simp only [parse_github_url, hcs, h1, Option.some_orElse]
    simp [Option.getD, Option.map, mk_toList]
  · -- bare repo URL
    have hcs : ("https://github.com/" ++ o ++ "/" ++ r).toList =
        "https://".toList ++ ("github.com/".toList ++ (o.toList ++ '/' :: r.toList)) := by
      simp only [toList_append]
      rw [show "https://github.com/".toList = "https://".toList ++ "github.com/".toList from rfl,
          show ("/" : String).toList = ['/'] from rfl]
      simp [List.append_assoc]
    have h1 := ghPat1_noTree o.toList r.toList r.toList [] ho0 ho
      (segAny_self r.toList hr0 hr) rfl
    simp only [parse_github_url, hcs, h1, Option.some_orElse]
    simp [Option.getD, Option.map, mk_toList]
  · -- .git suffix is stripped
    have hgit4 : ∀ c ∈ (".git" : String).toList, c ≠ '/' := by decide
    have hgit : ∀ c ∈ r.toList ++ ".git".toList, c ≠ '/' := by
      intro c hc
      rcases List.mem_append.1 hc with h | h
      · exact hr c h
      · exact hgit4 c h
    have hgit0 : r.toList ++ ".git".toList ≠ [] := by
      intro habs
      exact hr0 (List.append_eq_nil.1 habs).1
    have hcs : ("https://github.com/" ++ o ++ "/" ++ r ++ ".git").toList =
        "https://".toList ++ ("github.com/".toList ++
          (o.toList ++ '/' :: (r.toList ++ ".git".toList))) := by
      simp only [toList_append]
      rw [show "https://github.com/".toList = "https://".toList ++ "github.com/".toList from rfl,
          show ("/" : String).toList = ['/'] from rfl]
      simp [List.append_assoc]
    have h1 := ghPat1_noTree o.toList (r.toList ++ ".git".toList)
      (r.toList ++ ".git".toList) [] ho0 ho
      (segAny_self _ hgit0 hgit) rfl
    simp only [parse_github_url, hcs, h1, Option.some_orElse]
    have hsg : stripGitSuffix (r.data ++ ['.', 'g', 'i', 't']) = r.data :=
      stripGit_append r.data
    simp [Option.getD, Option.map, mk_toList, hsg]
  · -- raw-content URL
    have hcs : ("https://raw.githubusercontent.com/" ++ o ++ "/" ++ r ++ "/" ++ br ++ "/" ++ p).toList =
        "https://".toList ++ ("raw.githubusercontent.com/".toList ++
          (o.toList ++ '/' :: (r.toList ++ '/' :: (br.toList ++ '/' :: p.toList)))) := by
      simp only [toList_append]
      rw [show "https://raw.githubusercontent.com/".toList =
            "https://".toList ++ "raw.githubusercontent.com/".toList from rfl,
          show ("/" : String).toList = ['/'] from rfl]
      simp [List.append_assoc]
    have h1 := ghPat1_raw_none
      (o.toList ++ '/' :: (r.toList ++ '/' :: (br.toList ++ '/' :: p.toList)))
    have h2 := ghPat2_raw o.toList r.toList br.toList p.toList ho0 ho hr0 hr hb0 hb hp0 hp
    simp only [parse_github_url, hcs, h1, h2, Option.none_orElse, Option.some_orElse]
    simp [Option.getD, Option.map, mk_toList]
  · -- shorthand owner/repo
    have hcs : (o ++ "/" ++ r).toList = o.toList ++ '/' :: r.toList := by
      simp only [toList_append]
      rw [show ("/" : String).toList = ['/'] from rfl]
      simp
    have hnone := stripScheme_shorthand_none o.toList r.toList ho0 ho hr
    have h1 : ghPat1 (o.toList ++ '/' :: r.toList) = none := by
      simp only [ghPat1]
      rw [hnone]
      rfl
    have h2 : ghPat2 (o.toList ++ '/' :: r.toList) = none := by
      simp only [ghPat2]
      rw [hnone]
      rfl
    have h3 : ghPat3 (o.toList ++ '/' :: r.toList) = none := by
      simp only [ghPat3]
      rw [hnone]
      rfl
    have h4 : ghPat4 (o.toList ++ '/' :: r.toList) = none := by
      simp only [ghPat4]
      rw [hnone]
      rfl
    have hsh : ghShorthand (o.toList ++ '/' :: r.toList) = some (o.toList, r.toList) := by
      simp only [ghShorthand, segSlash_eval o.toList r.toList ho0 ho, Option.some_bind]
      rw [if_pos]
      exact ⟨hr0, by simpa [List.all_eq_true] using fun c hc => hr c hc⟩
    simp only [parse_github_url, hcs, h1, h2, h3, h4, Option.none_orElse, hsh]
    simp [mk_toList]

/-- C10 witness: concrete instances of each recognized shape. -/
theorem parse_github_url_shapes_witness :
    parse_github_url ("https://github.com/" ++ "alice" ++ "/" ++ "proj" ++ "/tree/" ++ "dev" ++ "/" ++ "src/main.py") =
      some ("alice", "proj", "dev", some "src/main.py") ∧
    parse_github_url ("alice" ++ "/" ++ "proj") = some ("alice", "proj", "main", none) := by
  have h := parse_github_url_shapes "alice" "proj" "dev" "src/main.py"
    (by decide) (by decide) (by decide) (by decide)
    (by decide) (by decide) (by decide) (by decide)
  exact ⟨h.1.trans (by decide), (h.2.2.2.2.2).trans (by decide)⟩

/-- C10 (counterexample).  A blob URL that names the branch `dev` and a file
path parses to branch `main` with no path: the first pattern shadows the
blob pattern, so the URL-named branch is lost, contradicting the claim that
the branch defaults to `main` only when the URL names none. -/
theorem parse_github_url_blob_branch_lost :
    parse_github_url "https://github.com/a/b/blob/dev/src/f.py" =
      some ("a", "b", "main", none) ∧
    some (("a" : String), ("b" : String), ("main" : String), (none : Option String)) ≠
      some ("a", "b", "dev", some "src/f.py") := by
  constructor
  · decide
  · decide

end Sceptic
